import Mathlib

/-!
Verification development for the gamebox library (gamebox.py): a shallow
embedding of the image transform cache (`_ImageCache`), the image source
resolver, and the `SpriteBox` geometry/transformation model, together with
theorems settling the specification claims about them.

Machine integers of the source are modelled as `ℤ`/`ℕ`, Python floats as `ℚ`
(the library does exact-style arithmetic on coordinates; no float-rounding
behaviour is claimed), pygame Surfaces as a symbolic `Image` tree, the pygame
decoder and the filesystem/network as an explicit environment `Env`, and the
process-wide mutable caches as an explicit state `St` threaded through each
operation.
-/

set_option autoImplicit false

/-- Cache key, mirroring `_ImageKey` in gamebox.py: `(key, flip, w, h, angle)`
with defaults `(False, 0, 0, 0)`. -/
structure ImageKey where
  key : String
  flip : Bool
  w : ℤ
  h : ℤ
  angle : ℤ
deriving DecidableEq

/-- Symbolic decoded/transformed image (a pygame `Surface`).  `decoded src n`
is the image produced by the `n`-th decode of file `src`: the counter models
distinct object identity of repeated `pygame.image.load` calls.  The other
constructors record applications of `pygame.transform.rotozoom` (scale 1),
`pygame.transform.smoothscale` and `pygame.transform.flip(·, True, False)`. -/
inductive Image where
  | decoded (src : String) (n : ℕ)
  | rotozoom (base : Image) (angle : ℤ)
  | smoothscale (base : Image) (w h : ℤ)
  | flipH (base : Image)
deriving DecidableEq

/-- Python exception classes crossing the resolver boundary.
`valueError ref` is the `ValueError` raised by `load_filename_or_url`;
`osError` stands for any `OSError` subclass (missing file, `urllib` network
failure); `pygameError` stands for `pygame.error`, the decoder's corrupt-data
error, which subclasses `RuntimeError` and is *not* an `OSError`. -/
inductive Err where
  | valueError (ref : String)
  | osError
  | pygameError
deriving DecidableEq

/-- The message of the `ValueError` raised in `load_filename_or_url`. -/
def errMsg : Err → String
  | .valueError ref =>
      "An error occurred while fetching image, are you sure the file/website name is \"" ++
        ref ++ "\"?"
  | .osError => "OSError"
  | .pygameError => "pygame.error"

/-- Environment: the external collaborators of the cache (decoder dimensions,
rotozoom output dimensions, initial filesystem, URL handling), held fixed over
a run. -/
structure Env where
  /-- Pixel dimensions of the image decoded from a given file. -/
  natDims : String → ℕ × ℕ
  /-- Output dimensions of `pygame.transform.rotozoom (·, angle, 1)`. -/
  rotDims : ℕ × ℕ → ℤ → ℕ × ℕ
  /-- Which paths exist on the local filesystem before the run. -/
  fileExists0 : String → Bool
  /-- `os.path.basename(urllib.parse.urlparse(url).path)`. -/
  urlBasename : String → String
  /-- Whether downloading the given URL succeeds (`urllib.request.urlretrieve`,
  with the `http://` prefix added when no `://` is present). -/
  urlOk : String → Bool
  /-- Whether decoding the given (existing) file succeeds. -/
  decodeOk : String → Bool
  /-- Whether a decode failure for this file raises an `OSError` subclass
  (e.g. `PermissionError`); corrupt data raises `pygame.error`, which is not
  an `OSError`. -/
  decodeFailOS : String → Bool

/-- Pixel dimensions of an image, given the environment. -/
def dims (env : Env) : Image → ℕ × ℕ
  | .decoded src _ => env.natDims src
  | .rotozoom base angle => env.rotDims (dims env base) angle
  | .smoothscale _ w h => (w.toNat, h.toNat)
  | .flipH base => dims env base

/-- Injective printable tag of an image, used to model `str(id(surface))`:
distinct decoded surfaces (distinct decode counters) get distinct tags. -/
def imageTag : Image → String
  | .decoded src n => "d(" ++ src ++ "," ++ toString n ++ ")"
  | .rotozoom base angle => "r(" ++ imageTag base ++ "," ++ toString angle ++ ")"
  | .smoothscale base w h =>
      "s(" ++ imageTag base ++ "," ++ toString w ++ "," ++ toString h ++ ")"
  | .flipH base => "f(" ++ imageTag base ++ ")"

/-- The identity key string `'__id__' + str(id(surface))` used by
`_ImageCache.cache_surface` and `SpriteBox._set_key`. -/
def idStr (img : Image) : String := "__id__" ++ imageTag img

/-- The image cache `_ImageCache._known_images`, as an association list with
dict semantics (insert replaces in place). -/
abbrev Cache := List (ImageKey × Image)

/-- Dictionary lookup. -/
def lookupC : Cache → ImageKey → Option Image
  | [], _ => none
  | (k, v) :: rest, key => if k = key then some v else lookupC rest key

/-- Dictionary insert: replaces the value of an existing key in place,
appends a new key at the end. -/
def insertC : Cache → ImageKey → Image → Cache
  | [], key, v => [(key, v)]
  | (k, w) :: rest, key, v =>
      if k = key then (key, v) :: rest else (k, w) :: insertC rest key v

/-- Process state: the image cache, files created by URL downloads during the
run, and the decode counter (for object identity of decoded surfaces). -/
structure St where
  cache : Cache
  files : List String
  ctr : ℕ
deriving DecidableEq

/-- `os.path.exists`, accounting for files downloaded earlier in the run. -/
def fileExistsSt (env : Env) (st : St) (path : String) : Bool :=
  env.fileExists0 path || st.files.contains path

/-- `pygame.image.load(fn).convert_alpha()`: decodes an existing file,
producing a fresh surface; raises `FileNotFoundError` (an `OSError`) on a
missing file and `pygame.error` (not an `OSError`) on corrupt data. -/
def decodeImage (env : Env) (st : St) (fn : String) : Except Err (Image × St) :=
  if fileExistsSt env st fn then
    if env.decodeOk fn then
      .ok (Image.decoded fn st.ctr, { st with ctr := st.ctr + 1 })
    else
      .error (if env.decodeFailOS fn then Err.osError else Err.pygameError)
  else
    .error Err.osError

/-- `_ImageCache.cache_surface`: registers a surface under its identity key
and under `(id, False, width, height)`, unless the identity key is present. -/
def cache_surface (env : Env) (st : St) (surf : Image) : St :=
  let sid := idStr surf
  if (lookupC st.cache ⟨sid, false, 0, 0, 0⟩).isSome then st
  else
    let d := dims env surf
    { st with
      cache := insertC (insertC st.cache ⟨sid, false, 0, 0, 0⟩ surf)
        ⟨sid, false, (d.1 : ℤ), (d.2 : ℤ), 0⟩ surf }

/-- `_ImageCache._get_filename`: decode a file, cache the image under the
filename key and under `(filename, False, width, height)`, then register it
as a surface. -/
def get_filename (env : Env) (st : St) (fn : String) : Except Err (Image × St) :=
  match decodeImage env st fn with
  | .error e => .error e
  | .ok (image, st1) =>
      let d := dims env image
      let c1 := insertC st1.cache ⟨fn, false, 0, 0, 0⟩ image
      let c2 := insertC c1 ⟨fn, false, (d.1 : ℤ), (d.2 : ℤ), 0⟩ image
      .ok (image, cache_surface env { st1 with cache := c2 } image)

/-- `_ImageCache._get_url`: derive a local filename from the URL path, download
it if not present, then load the local file via `_get_filename`. -/
def get_url (env : Env) (st : St) (url : String) : Except Err (Image × St) :=
  let fn := env.urlBasename url
  if fileExistsSt env st fn then get_filename env st fn
  else if env.urlOk url then
    get_filename env { st with files := fn :: st.files } fn
  else .error Err.osError

/-- `_ImageCache.load_filename_or_url`: cache, then local file, then URL;
`OSError` failures are re-raised as a single `ValueError` naming the
reference, other exception classes propagate unchanged. -/
def load_filename_or_url (env : Env) (st : St) (s : String) :
    Except Err (Image × St) :=
  match lookupC st.cache ⟨s, false, 0, 0, 0⟩ with
  | some img => .ok (img, st)
  | none =>
      match (if fileExistsSt env st s then get_filename env st s
             else get_url env st s) with
      | .ok r => .ok r
      | .error e =>
          match e with
          | .osError => .error (Err.valueError s)
          | _ => .error e

/-- `_ImageCache.get_transform`: resolve a transform key, building missing
entries by recursive composition (rotate after scale after flip after load),
caching every computed entry, and — when the request used the `(0, 0)`
natural-size sentinel — additionally caching the result under the dimensions
of the zero-angle intermediate. -/
def get_transform (env : Env) (st : St) (s : String) (flip : Bool)
    (w h angle : ℤ) : Except Err (Image × St) :=
  let k : ImageKey := ⟨s, flip, w, h, angle⟩
  let main : Except Err (Image × St) :=
    match lookupC st.cache k with
    | some img => .ok (img, st)
    | none =>
        if ha : angle ≠ 0 then
          match get_transform env st s flip w h 0 with
          | .error e => .error e
          | .ok (base, st1) =>
              let img := Image.rotozoom base angle
              .ok (img, { st1 with cache := insertC st1.cache k img })
        else if hwh : w ≠ 0 ∨ h ≠ 0 then
          match get_transform env st s flip 0 0 0 with
          | .error e => .error e
          | .ok (base, st1) =>
              let img := Image.smoothscale base w h
              .ok (img, { st1 with cache := insertC st1.cache k img })
        else if hf : flip then
          match get_transform env st s false 0 0 0 with
          | .error e => .error e
          | .ok (base, st1) =>
              let img := Image.flipH base
              .ok (img, { st1 with cache := insertC st1.cache k img })
        else
          match load_filename_or_url env st s with
          | .error e => .error e
          | .ok (img, st1) =>
              .ok (img, { st1 with cache := insertC st1.cache k img })
  match main with
  | .error e => .error e
  | .ok (ans, st2) =>
      if w = 0 ∧ h = 0 then
        match (if ha2 : angle ≠ 0 then get_transform env st2 s flip 0 0 0
               else .ok (ans, st2)) with
        | .error e => .error e
        | .ok (tmp, st3) =>
            let d := dims env tmp
            .ok (ans, { st3 with
              cache := insertC st3.cache ⟨s, flip, (d.1 : ℤ), (d.2 : ℤ), angle⟩ ans })
      else .ok (ans, st2)
termination_by
  (if angle = 0 then 0 else 4) + (if w = 0 ∧ h = 0 then 0 else 2) +
    (if flip then 1 else 0)
decreasing_by
  all_goals (split_ifs <;> try omega)
  all_goals tauto

/-! ### Association-list (dict) lemmas -/

theorem lookupC_nil (k : ImageKey) : lookupC [] k = none := rfl

theorem lookupC_insertC_self (c : Cache) (k : ImageKey) (v : Image) :
    lookupC (insertC c k v) k = some v := by
  induction c with
  | nil => simp [insertC, lookupC]
  | cons p rest ih =>
      obtain ⟨k', v'⟩ := p
      by_cases hk : k' = k
      · simp [insertC, hk, lookupC]
      · simp [insertC, hk, lookupC, ih]

theorem lookupC_insertC_ne (c : Cache) (k k' : ImageKey) (v : Image)
    (hne : k' ≠ k) : lookupC (insertC c k v) k' = lookupC c k' := by
  induction c with
  | nil => simp [insertC, lookupC, Ne.symm hne]
  | cons p rest ih =>
      obtain ⟨k0, v0⟩ := p
      by_cases hk : k0 = k
      · subst hk
        simp [insertC, lookupC, hne, Ne.symm hne]
      · simp [insertC, hk, lookupC, ih]

theorem insertC_lookup_eq (c : Cache) (k : ImageKey) (v : Image)
    (h : lookupC c k = some v) : insertC c k v = c := by
  induction c with
  | nil => simp [lookupC] at h
  | cons p rest ih =>
      obtain ⟨k0, v0⟩ := p
      by_cases hk : k0 = k
      · subst hk
        simp [lookupC] at h
        simp [insertC, h]
      · simp [lookupC, hk] at h
        simp [insertC, hk, ih h]

/-! ### Basic lemmas about `get_transform` -/

/-- A cache hit with non-sentinel size returns the cached image unchanged and
leaves the state untouched (the natural-size post-step does not run). -/
theorem get_transform_hit (env : Env) (st : St) (s : String) (flip : Bool)
    (w h angle : ℤ) (v : Image)
    (hv : lookupC st.cache ⟨s, flip, w, h, angle⟩ = some v)
    (hwh : ¬(w = 0 ∧ h = 0)) :
    get_transform env st s flip w h angle = .ok (v, st) := by
  rw [get_transform.eq_def]
  simp only [hv, hwh, if_false]

/-- The main branch of `get_transform` (cache check plus the four resolution
cases), factored out for case analysis. -/
def gtMain (env : Env) (st : St) (s : String) (flip : Bool) (w h angle : ℤ) :
    Except Err (Image × St) :=
  let k : ImageKey := ⟨s, flip, w, h, angle⟩
  match lookupC st.cache k with
  | some img => .ok (img, st)
  | none =>
      if angle ≠ 0 then
        match get_transform env st s flip w h 0 with
        | .error e => .error e
        | .ok (base, st1) =>
            let img := Image.rotozoom base angle
            .ok (img, { st1 with cache := insertC st1.cache k img })
      else if w ≠ 0 ∨ h ≠ 0 then
        match get_transform env st s flip 0 0 0 with
        | .error e => .error e
        | .ok (base, st1) =>
            let img := Image.smoothscale base w h
            .ok (img, { st1 with cache := insertC st1.cache k img })
      else if flip then
        match get_transform env st s false 0 0 0 with
        | .error e => .error e
        | .ok (base, st1) =>
            let img := Image.flipH base
            .ok (img, { st1 with cache := insertC st1.cache k img })
      else
        match load_filename_or_url env st s with
        | .error e => .error e
        | .ok (img, st1) =>
            .ok (img, { st1 with cache := insertC st1.cache k img })

/-- The natural-size post-step of `get_transform`, factored out for case
analysis. -/
def gtPost (env : Env) (s : String) (flip : Bool) (w h angle : ℤ) :
    Except Err (Image × St) → Except Err (Image × St)
  | .error e => .error e
  | .ok (ans, st2) =>
      if w = 0 ∧ h = 0 then
        match (if angle ≠ 0 then get_transform env st2 s flip 0 0 0
               else .ok (ans, st2)) with
        | .error e => .error e
        | .ok (tmp, st3) =>
            let d := dims env tmp
            .ok (ans, { st3 with
              cache := insertC st3.cache ⟨s, flip, (d.1 : ℤ), (d.2 : ℤ), angle⟩ ans })
      else .ok (ans, st2)

/-- `get_transform` is its main branch followed by its post-step. -/
theorem get_transform_eq (env : Env) (st : St) (s : String) (flip : Bool)
    (w h angle : ℤ) :
    get_transform env st s flip w h angle =
      gtPost env s flip w h angle (gtMain env st s flip w h angle) := by
  rw [get_transform.eq_def]
  simp only [gtMain, gtPost, dite_eq_ite]

/-- `DoneAt env c s flip w h angle img`: the cache `c` fully records a
successful resolution of `(s, flip, w, h, angle)` with result `img`: the
exact key is present, and — when the request used the natural-size sentinel —
the zero-angle intermediate and both aliases written by the post-step are
present as well. -/
def DoneAt (env : Env) (c : Cache) (s : String) (flip : Bool)
    (w h angle : ℤ) (img : Image) : Prop :=
  lookupC c ⟨s, flip, w, h, angle⟩ = some img ∧
  (w = 0 ∧ h = 0 →
    ∃ tmp, lookupC c ⟨s, flip, 0, 0, 0⟩ = some tmp ∧
      lookupC c ⟨s, flip, ((dims env tmp).1 : ℤ), ((dims env tmp).2 : ℤ), 0⟩ =
        some tmp ∧
      lookupC c ⟨s, flip, ((dims env tmp).1 : ℤ), ((dims env tmp).2 : ℤ), angle⟩ =
        some img)

/-- A fully recorded natural-size, zero-angle request re-runs as a pure cache
hit: same image, state unchanged. -/
theorem get_transform_done_zero (env : Env) (st : St) (s : String) (flip : Bool)
    (img : Image) (hd : DoneAt env st.cache s flip 0 0 0 img) :
    get_transform env st s flip 0 0 0 = .ok (img, st) := by
  obtain ⟨h1, h2⟩ := hd
  obtain ⟨tmp, ht1, ht2, ht3⟩ := h2 ⟨rfl, rfl⟩
  rw [h1] at ht1
  obtain rfl : tmp = img := by injection ht1 with h; exact h.symm
  rw [get_transform_eq]
  simp only [gtMain, h1, gtPost, and_self, if_true, ne_eq,
    not_true_eq_false, if_false, dite_eq_ite, if_neg, reduceIte]
  rw [insertC_lookup_eq _ _ _ ht2]

/-- A fully recorded request re-runs as a pure cache hit: same image, state
unchanged (the post-step re-inserts only pairs that are already present). -/
theorem get_transform_done (env : Env) (st : St) (s : String) (flip : Bool)
    (w h angle : ℤ) (img : Image)
    (hd : DoneAt env st.cache s flip w h angle img) :
    get_transform env st s flip w h angle = .ok (img, st) := by
  by_cases hwh : w = 0 ∧ h = 0
  · obtain ⟨rfl, rfl⟩ := hwh
    by_cases ha : angle = 0
    · subst ha
      exact get_transform_done_zero env st s flip img hd
    · obtain ⟨h1, h2⟩ := hd
      obtain ⟨tmp, ht1, ht2, ht3⟩ := h2 ⟨rfl, rfl⟩
      have hdz : DoneAt env st.cache s flip 0 0 0 tmp := by
        refine ⟨ht1, fun _ => ⟨tmp, ht1, ht2, ht2⟩⟩
      rw [get_transform_eq]
      simp only [gtMain, h1, gtPost, and_self, if_true, ne_eq, ha,
        not_false_eq_true, if_true, reduceIte]
      rw [get_transform_done_zero env st s flip tmp hdz]
      simp only []
      rw [insertC_lookup_eq _ _ _ ht3]
  · exact get_transform_hit env st s flip w h angle img hd.1 hwh

/-- Case analysis for a successful `gtMain` run. -/
theorem gtMain_cases (env : Env) (st : St) (s : String) (f : Bool)
    (w h a : ℤ) (img : Image) (st2 : St)
    (hok : gtMain env st s f w h a = .ok (img, st2)) :
    (lookupC st.cache ⟨s, f, w, h, a⟩ = some img ∧ st2 = st) ∨
    (lookupC st.cache ⟨s, f, w, h, a⟩ = none ∧
      ((a ≠ 0 ∧ ∃ base st1, get_transform env st s f w h 0 = .ok (base, st1) ∧
          img = .rotozoom base a ∧
          st2 = { st1 with cache := insertC st1.cache ⟨s, f, w, h, a⟩ img }) ∨
       (a = 0 ∧ (w ≠ 0 ∨ h ≠ 0) ∧
          ∃ base st1, get_transform env st s f 0 0 0 = .ok (base, st1) ∧
          img = .smoothscale base w h ∧
          st2 = { st1 with cache := insertC st1.cache ⟨s, f, w, h, a⟩ img }) ∨
       (a = 0 ∧ w = 0 ∧ h = 0 ∧ f = true ∧
          ∃ base st1, get_transform env st s false 0 0 0 = .ok (base, st1) ∧
          img = .flipH base ∧
          st2 = { st1 with cache := insertC st1.cache ⟨s, f, w, h, a⟩ img }) ∨
       (a = 0 ∧ w = 0 ∧ h = 0 ∧ f = false ∧
          ∃ st1, load_filename_or_url env st s = .ok (img, st1) ∧
          st2 = { st1 with cache := insertC st1.cache ⟨s, f, w, h, a⟩ img }))) := by
  simp only [gtMain] at hok
  split at hok
  · next img' heq =>
      simp only [Except.ok.injEq, Prod.mk.injEq] at hok
      exact Or.inl ⟨hok.1 ▸ heq, hok.2.symm⟩
  · next heq =>
      refine Or.inr ⟨heq, ?_⟩
      split_ifs at hok with ha hwh hf
      · left
        refine ⟨ha, ?_⟩
        split at hok
        · exact absurd hok (by simp)
        · next base st1 heq2 =>
            simp only [Except.ok.injEq, Prod.mk.injEq] at hok
            exact ⟨base, st1, heq2, hok.1.symm, by rw [← hok.1, ← hok.2]⟩
      · right; left
        refine ⟨not_not.mp ha, hwh, ?_⟩
        split at hok
        · exact absurd hok (by simp)
        · next base st1 heq2 =>
            simp only [Except.ok.injEq, Prod.mk.injEq] at hok
            exact ⟨base, st1, heq2, hok.1.symm, by rw [← hok.1, ← hok.2]⟩
      · right; right; left
        push_neg at hwh
        refine ⟨not_not.mp ha, hwh.1, hwh.2, hf, ?_⟩
        split at hok
        · exact absurd hok (by simp)
        · next base st1 heq2 =>
            simp only [Except.ok.injEq, Prod.mk.injEq] at hok
            exact ⟨base, st1, heq2, hok.1.symm, by rw [← hok.1, ← hok.2]⟩
      · right; right; right
        push_neg at hwh
        refine ⟨not_not.mp ha, hwh.1, hwh.2, by simpa using hf, ?_⟩
        split at hok
        · exact absurd hok (by simp)
        · next img1 st1 heq2 =>
            simp only [Except.ok.injEq, Prod.mk.injEq] at hok
            exact ⟨st1, by rw [hok.1] at heq2; exact heq2, by rw [← hok.1, ← hok.2]⟩

/-- Case analysis for a successful `gtPost` run. -/
theorem gtPost_cases (env : Env) (s : String) (f : Bool) (w h a : ℤ)
    (r : Except Err (Image × St)) (img : Image) (st' : St)
    (hok : gtPost env s f w h a r = .ok (img, st')) :
    (¬(w = 0 ∧ h = 0) ∧ r = .ok (img, st')) ∨
    (w = 0 ∧ h = 0 ∧ ∃ st2, r = .ok (img, st2) ∧
      ((a = 0 ∧ st' = { st2 with cache := (insertC st2.cache
          ⟨s, f, ((dims env img).1 : ℤ), ((dims env img).2 : ℤ), a⟩ img) }) ∨
       (a ≠ 0 ∧ ∃ tmp st3, get_transform env st2 s f 0 0 0 = .ok (tmp, st3) ∧
          st' = { st3 with cache := (insertC st3.cache
            ⟨s, f, ((dims env tmp).1 : ℤ), ((dims env tmp).2 : ℤ), a⟩ img) }))) := by
  match r with
  | .error e => exact absurd hok (by simp [gtPost])
  | .ok (ans, st2) =>
      simp only [gtPost] at hok
      split_ifs at hok with hwh ha
      · -- natural-size request, nonzero angle: the post-step recurses
        split at hok
        · exact absurd hok (by simp)
        · next tmp st3 heq2 =>
            simp only [Except.ok.injEq, Prod.mk.injEq] at hok
            refine Or.inr ⟨hwh.1, hwh.2, st2, by rw [hok.1], Or.inr ⟨ha, tmp, st3, heq2, ?_⟩⟩
            rw [← hok.2, hok.1]
      · -- natural-size request, zero angle: the post-step uses the result itself
        have hok2 : Except.ok (ans, { st2 with cache := (insertC st2.cache
            ⟨s, f, ((dims env ans).1 : ℤ), ((dims env ans).2 : ℤ), a⟩ ans) }) =
            Except.ok (img, st') := hok
        simp only [Except.ok.injEq, Prod.mk.injEq] at hok2
        refine Or.inr ⟨hwh.1, hwh.2, st2, by rw [hok2.1], Or.inl ⟨not_not.mp ha, ?_⟩⟩
        rw [← hok2.2, hok2.1]
      · exact Or.inl ⟨hwh, by rw [hok]⟩

/-- Termination measure of `get_transform` (used for induction over its call
tree). -/
def gtMeas (flip : Bool) (w h angle : ℤ) : ℕ :=
  (if angle = 0 then 0 else 4) + (if w = 0 ∧ h = 0 then 0 else 2) +
    (if flip then 1 else 0)

theorem gtMeas_rot (flip : Bool) (w h angle : ℤ) (ha : angle ≠ 0) :
    gtMeas flip w h 0 < gtMeas flip w h angle := by
  unfold gtMeas
  split_ifs <;> first | omega | simp_all

theorem gtMeas_scale (flip : Bool) (w h : ℤ) (hwh : w ≠ 0 ∨ h ≠ 0) :
    gtMeas flip 0 0 0 < gtMeas flip w h 0 := by
  unfold gtMeas
  split_ifs <;> first | omega | simp_all | tauto

theorem gtMeas_flip (w h : ℤ) (hwh : w = 0 ∧ h = 0) :
    gtMeas false w h 0 < gtMeas true w h 0 := by
  unfold gtMeas
  split_ifs <;> first | omega | simp_all

theorem gtMeas_post (flip : Bool) (w h angle : ℤ) (ha : angle ≠ 0) :
    gtMeas flip 0 0 0 < gtMeas flip w h angle := by
  unfold gtMeas
  split_ifs <;> first | omega | simp_all | tauto

theorem ImageKey_ne_of_angle {k' : ImageKey} {s : String} {f : Bool}
    {w h a : ℤ} (hne : k'.angle ≠ a) : k' ≠ (⟨s, f, w, h, a⟩ : ImageKey) := by
  intro hc
  subst hc
  exact hne rfl

theorem ImageKey_ne_of_key {k' : ImageKey} {s : String} {f : Bool}
    {w h a : ℤ} (hne : k'.key ≠ s) : k' ≠ (⟨s, f, w, h, a⟩ : ImageKey) := by
  intro hc
  subst hc
  exact hne rfl

/-! ### Preservation of rotated-key entries by the loader -/

theorem cache_surface_preserves (env : Env) (st : St) (surf : Image)
    (k' : ImageKey) (h0 : k'.angle ≠ 0) :
    lookupC (cache_surface env st surf).cache k' = lookupC st.cache k' := by
  simp only [cache_surface]
  split
  · rfl
  · simp only []
    rw [lookupC_insertC_ne _ _ _ _ (ImageKey_ne_of_angle h0),
      lookupC_insertC_ne _ _ _ _ (ImageKey_ne_of_angle h0)]

theorem get_filename_preserves (env : Env) (st : St) (fn : String)
    (img : Image) (st1 : St) (hok : get_filename env st fn = .ok (img, st1))
    (k' : ImageKey) (h0 : k'.angle ≠ 0) :
    lookupC st1.cache k' = lookupC st.cache k' := by
  simp only [get_filename] at hok
  split at hok
  · exact absurd hok (by simp)
  · next image stD heq =>
      simp only [Except.ok.injEq, Prod.mk.injEq] at hok
      rw [← hok.2]
      rw [cache_surface_preserves env _ _ _ h0]
      simp only []
      rw [lookupC_insertC_ne _ _ _ _ (ImageKey_ne_of_angle h0),
        lookupC_insertC_ne _ _ _ _ (ImageKey_ne_of_angle h0)]
      simp only [decodeImage] at heq
      split_ifs at heq with h1 h2
      simp only [Except.ok.injEq, Prod.mk.injEq] at heq
      rw [← heq.2]

theorem get_url_preserves (env : Env) (st : St) (url : String)
    (img : Image) (st1 : St) (hok : get_url env st url = .ok (img, st1))
    (k' : ImageKey) (h0 : k'.angle ≠ 0) :
    lookupC st1.cache k' = lookupC st.cache k' := by
  simp only [get_url] at hok
  split_ifs at hok
  all_goals first
    | exact get_filename_preserves env _ _ img st1 hok k' h0
    | exact absurd hok (by simp)

theorem load_preserves (env : Env) (st : St) (s : String)
    (img : Image) (st1 : St)
    (hok : load_filename_or_url env st s = .ok (img, st1))
    (k' : ImageKey) (h0 : k'.angle ≠ 0) :
    lookupC st1.cache k' = lookupC st.cache k' := by
  simp only [load_filename_or_url] at hok
  split at hok
  · simp only [Except.ok.injEq, Prod.mk.injEq] at hok
    rw [← hok.2]
  · split at hok
    · next r heq =>
        simp only [Except.ok.injEq] at hok
        subst hok
        split_ifs at heq with h1
        · exact get_filename_preserves env st s img st1 heq k' h0
        · exact get_url_preserves env st s img st1 heq k' h0
    · next e heq => split at hok <;> exact absurd hok (by simp)

/-- A `get_transform` call only writes cache keys whose angle is `0` or the
call's own angle: every entry under a key with a different nonzero angle is
untouched. -/
theorem gt_preserves (env : Env) : ∀ (N : ℕ) (st : St) (s : String) (f : Bool)
    (w h a : ℤ) (img : Image) (st' : St), gtMeas f w h a ≤ N →
    get_transform env st s f w h a = .ok (img, st') →
    ∀ k' : ImageKey, k'.angle ≠ 0 → k'.angle ≠ a →
      lookupC st'.cache k' = lookupC st.cache k' := by
  intro N
  induction N using Nat.strong_induction_on with
  | _ N ih =>
    intro st s f w h a img st' hN hok k' h0 hka
    rw [get_transform_eq] at hok
    have hmainpres : ∀ st2 : St, gtMain env st s f w h a = .ok (img, st2) →
        lookupC st2.cache k' = lookupC st.cache k' := by
      intro st2 hmain
      rcases gtMain_cases env st s f w h a img st2 hmain with ⟨_, rfl⟩ | ⟨_, hbr⟩
      · rfl
      · rcases hbr with ⟨ha, base, st1, hrec, himg, rfl⟩ |
          ⟨ha, hwh, base, st1, hrec, himg, rfl⟩ |
          ⟨ha, hw0, hh0, hf, base, st1, hrec, himg, rfl⟩ |
          ⟨ha, hw0, hh0, hf, st1, hrec, rfl⟩
        · rw [lookupC_insertC_ne _ _ _ _ (ImageKey_ne_of_angle hka)]
          exact ih (gtMeas f w h 0) (lt_of_lt_of_le (gtMeas_rot f w h a ha) hN)
            st s f w h 0 base st1 le_rfl hrec k' h0 h0
        · subst ha
          rw [lookupC_insertC_ne _ _ _ _ (ImageKey_ne_of_angle hka)]
          exact ih (gtMeas f 0 0 0) (lt_of_lt_of_le (gtMeas_scale f w h hwh) hN)
            st s f 0 0 0 base st1 le_rfl hrec k' h0 h0
        · subst ha hf hw0 hh0
          rw [lookupC_insertC_ne _ _ _ _ (ImageKey_ne_of_angle hka)]
          exact ih (gtMeas false 0 0 0)
            (lt_of_lt_of_le (gtMeas_flip 0 0 ⟨rfl, rfl⟩) hN)
            st s false 0 0 0 base st1 le_rfl hrec k' h0 h0
        · subst ha
          rw [lookupC_insertC_ne _ _ _ _ (ImageKey_ne_of_angle hka)]
          exact load_preserves env st s img st1 hrec k' h0
    rcases gtPost_cases env s f w h a _ img st' hok with ⟨_, hmain⟩ |
      ⟨hw0, hh0, st2, hmain, hpost⟩
    · exact hmainpres st' hmain
    · rcases hpost with ⟨ha, rfl⟩ | ⟨ha, tmp, st3, htmp, rfl⟩
      · rw [lookupC_insertC_ne _ _ _ _ (ImageKey_ne_of_angle hka)]
        exact hmainpres st2 hmain
      · rw [lookupC_insertC_ne _ _ _ _ (ImageKey_ne_of_angle hka)]
        rw [ih (gtMeas f 0 0 0) (lt_of_lt_of_le (gtMeas_post f w h a ha) hN)
          st2 s f 0 0 0 tmp st3 le_rfl htmp k' h0 h0]
        exact hmainpres st2 hmain

/-- The main branch always leaves the requested key mapped to its result. -/
theorem gtMain_lookup (env : Env) (st : St) (s : String) (f : Bool)
    (w h a : ℤ) (img : Image) (st2 : St)
    (hok : gtMain env st s f w h a = .ok (img, st2)) :
    lookupC st2.cache ⟨s, f, w, h, a⟩ = some img := by
  rcases gtMain_cases env st s f w h a img st2 hok with ⟨hhit, rfl⟩ | ⟨hmiss, hbr⟩
  · exact hhit
  · rcases hbr with ⟨_, base, st1, _, _, rfl⟩ | ⟨_, _, base, st1, _, _, rfl⟩ |
      ⟨_, _, _, _, base, st1, _, _, rfl⟩ | ⟨_, _, _, _, st1, _, rfl⟩ <;>
    exact lookupC_insertC_self _ _ _

/-- One insert never erases: the looked-up value after an insert is the
inserted value (same key) or the old value (different key); in particular, if
both agree the lookup always yields that value. -/
theorem lookupC_insertC_same (c : Cache) (k kIns : ImageKey) (v : Image)
    (hold : kIns ≠ k → lookupC c k = some v) :
    lookupC (insertC c kIns v) k = some v := by
  by_cases hk : kIns = k
  · subst hk
    exact lookupC_insertC_self c kIns v
  · rw [lookupC_insertC_ne _ _ _ _ (Ne.symm hk)]
    exact hold hk

/-- A successful natural-size zero-angle resolution leaves the cache fully
recorded. -/
theorem gt_done_zero (env : Env) (st : St) (s : String) (f : Bool)
    (img : Image) (st' : St)
    (hok : get_transform env st s f 0 0 0 = .ok (img, st')) :
    DoneAt env st'.cache s f 0 0 0 img := by
  rw [get_transform_eq] at hok
  rcases gtPost_cases env s f 0 0 0 _ img st' hok with ⟨hwh, _⟩ |
    ⟨_, _, st2, hmain, hpost⟩
  · exact absurd ⟨rfl, rfl⟩ hwh
  · rcases hpost with ⟨_, rfl⟩ | ⟨ha, _⟩
    · have hl2 := gtMain_lookup env st s f 0 0 0 img st2 hmain
      constructor
      · exact lookupC_insertC_same _ _ _ _ (fun _ => hl2)
      · intro _
        refine ⟨img, lookupC_insertC_same _ _ _ _ (fun _ => hl2),
          lookupC_insertC_self _ _ _, lookupC_insertC_self _ _ _⟩
    · exact absurd rfl ha

/-- Main invariant: any successful `get_transform` call leaves the cache
fully recorded for its arguments (`DoneAt`), so that an identical repeat call
is a pure hit. -/
theorem gt_done (env : Env) (st : St) (s : String) (f : Bool)
    (w h a : ℤ) (img : Image) (st' : St)
    (hok : get_transform env st s f w h a = .ok (img, st')) :
    DoneAt env st'.cache s f w h a img := by
  rw [get_transform_eq] at hok
  rcases gtPost_cases env s f w h a _ img st' hok with ⟨hwh, hmain⟩ |
    ⟨hw0, hh0, st2, hmain, hpost⟩
  · exact ⟨gtMain_lookup env st s f w h a img st' hmain,
      fun hc => absurd hc hwh⟩
  · subst hw0 hh0
    have hl2 := gtMain_lookup env st s f 0 0 a img st2 hmain
    rcases hpost with ⟨ha, rfl⟩ | ⟨ha, tmp, st3, htmp, rfl⟩
    · subst ha
      constructor
      · exact lookupC_insertC_same _ _ _ _ (fun _ => hl2)
      · intro _
        refine ⟨img, lookupC_insertC_same _ _ _ _ (fun _ => hl2),
          lookupC_insertC_self _ _ _, lookupC_insertC_self _ _ _⟩
    · have hd3 := gt_done_zero env st2 s f tmp st3 htmp
      have hl3 : lookupC st3.cache ⟨s, f, 0, 0, a⟩ = some img := by
        rw [gt_preserves env (gtMeas f 0 0 0) st2 s f 0 0 0 tmp st3 le_rfl htmp
          ⟨s, f, 0, 0, a⟩ ha ha]
        exact hl2
      obtain ⟨hd31, hd32⟩ := hd3
      obtain ⟨tmp2, htm1, htm2, _⟩ := hd32 ⟨rfl, rfl⟩
      rw [hd31] at htm1
      have htmp2 : tmp = tmp2 := by injection htm1
      constructor
      · exact lookupC_insertC_same _ _ _ _ (fun _ => hl3)
      · intro _
        refine ⟨tmp, ?_, ?_, lookupC_insertC_self _ _ _⟩
        · rw [lookupC_insertC_ne _ _ _ _ (ImageKey_ne_of_angle (Ne.symm ha))]
          exact hd31
        · rw [lookupC_insertC_ne _ _ _ _ (ImageKey_ne_of_angle (Ne.symm ha))]
          rw [htmp2]
          exact htm2

/-- Cache well-formedness: every entry under a zero-angle key has nonnegative
key dimensions; `(0, 0)`-keys (natural size) hold an image with positive
dimensions, and any other zero-angle key holds an image whose dimensions
equal the key's. -/
def WFCache (env : Env) (c : Cache) : Prop :=
  ∀ k img, lookupC c k = some img → k.angle = 0 →
    0 ≤ k.w ∧ 0 ≤ k.h ∧
    (k.w = 0 ∧ k.h = 0 → 0 < (dims env img).1 ∧ 0 < (dims env img).2) ∧
    (¬(k.w = 0 ∧ k.h = 0) →
      ((dims env img).1 : ℤ) = k.w ∧ ((dims env img).2 : ℤ) = k.h)

/-- All sources decode to non-empty images. -/
def PosDims (env : Env) : Prop :=
  ∀ s : String, 0 < (env.natDims s).1 ∧ 0 < (env.natDims s).2

theorem WFCache_insert (env : Env) (c : Cache) (k : ImageKey) (img : Image)
    (hwf : WFCache env c)
    (hk : k.angle = 0 → 0 ≤ k.w ∧ 0 ≤ k.h ∧
      (k.w = 0 ∧ k.h = 0 → 0 < (dims env img).1 ∧ 0 < (dims env img).2) ∧
      (¬(k.w = 0 ∧ k.h = 0) →
        ((dims env img).1 : ℤ) = k.w ∧ ((dims env img).2 : ℤ) = k.h)) :
    WFCache env (insertC c k img) := by
  intro k' img' hlk hk'a
  by_cases hkk : k' = k
  · subst hkk
    rw [lookupC_insertC_self] at hlk
    obtain rfl : img = img' := by injection hlk
    exact hk hk'a
  · rw [lookupC_insertC_ne _ _ _ _ hkk] at hlk
    exact hwf k' img' hlk hk'a

theorem cache_surface_wf (env : Env) (st : St) (surf : Image)
    (hwf : WFCache env st.cache)
    (hp : 0 < (dims env surf).1 ∧ 0 < (dims env surf).2) :
    WFCache env (cache_surface env st surf).cache := by
  simp only [cache_surface]
  split
  · exact hwf
  · simp only []
    refine WFCache_insert env _ _ _ (WFCache_insert env _ _ _ hwf ?_) ?_
    · intro _
      exact ⟨le_refl 0, le_refl 0, fun _ => hp, fun hc => absurd ⟨rfl, rfl⟩ hc⟩
    · intro _
      refine ⟨Int.ofNat_nonneg _, Int.ofNat_nonneg _, ?_, fun _ => ⟨rfl, rfl⟩⟩
      intro hc
      constructor <;> [skip; skip] <;> omega

theorem get_filename_wf (env : Env) (st : St) (fn : String)
    (img : Image) (st1 : St) (hpos : PosDims env)
    (hwf : WFCache env st.cache) (hok : get_filename env st fn = .ok (img, st1)) :
    WFCache env st1.cache ∧ dims env img = env.natDims fn := by
  simp only [get_filename] at hok
  split at hok
  · exact absurd hok (by simp)
  · next image stD heq =>
      simp only [decodeImage] at heq
      split_ifs at heq with h1 h2
      simp only [Except.ok.injEq, Prod.mk.injEq] at heq hok
      obtain ⟨himage, hstD⟩ := heq
      obtain ⟨himg, hst1⟩ := hok
      subst himg
      have hdimg : dims env image = env.natDims fn := by
        rw [← himage]
        rfl
      refine ⟨?_, hdimg⟩
      rw [← hst1]
      have hwfD : WFCache env stD.cache := by
        rw [← hstD]
        exact hwf
      refine cache_surface_wf env _ _ ?_ ?_
      · refine WFCache_insert env _ _ _ (WFCache_insert env _ _ _ hwfD ?_) ?_
        · intro _
          refine ⟨le_refl 0, le_refl 0, fun _ => ?_, fun hc => absurd ⟨rfl, rfl⟩ hc⟩
          rw [hdimg]
          exact hpos fn
        · intro _
          refine ⟨Int.ofNat_nonneg _, Int.ofNat_nonneg _, ?_, fun _ => ⟨rfl, rfl⟩⟩
          intro hc
          have := hpos fn
          rw [hdimg] at hc ⊢
          omega
      · rw [hdimg]
        exact hpos fn

theorem get_url_wf (env : Env) (st : St) (url : String)
    (img : Image) (st1 : St) (hpos : PosDims env)
    (hwf : WFCache env st.cache) (hok : get_url env st url = .ok (img, st1)) :
    WFCache env st1.cache ∧ dims env img = env.natDims (env.urlBasename url) := by
  simp only [get_url] at hok
  split_ifs at hok
  all_goals first
    | (refine get_filename_wf env _ _ img st1 hpos ?_ hok; exact hwf)
    | exact absurd hok (by simp)

theorem load_wf (env : Env) (st : St) (s : String) (img : Image) (st1 : St)
    (hpos : PosDims env) (hwf : WFCache env st.cache)
    (hok : load_filename_or_url env st s = .ok (img, st1)) :
    WFCache env st1.cache ∧ 0 < (dims env img).1 ∧ 0 < (dims env img).2 := by
  simp only [load_filename_or_url] at hok
  split at hok
  · next img' hl =>
      simp only [Except.ok.injEq, Prod.mk.injEq] at hok
      obtain ⟨h1, h2⟩ := hok
      subst h1
      refine ⟨by rw [← h2]; exact hwf, ?_⟩
      exact (hwf _ _ hl rfl).2.2.1 ⟨rfl, rfl⟩
  · split at hok
    · next r heq =>
        simp only [Except.ok.injEq] at hok
        subst hok
        split_ifs at heq with h1
        · obtain ⟨hw, hd⟩ := get_filename_wf env st s img st1 hpos hwf heq
          exact ⟨hw, by rw [hd]; exact (hpos s).1, by rw [hd]; exact (hpos s).2⟩
        · obtain ⟨hw, hd⟩ := get_url_wf env st s img st1 hpos hwf heq
          exact ⟨hw, by rw [hd]; exact (hpos _).1, by rw [hd]; exact (hpos _).2⟩
    · next e heq => split at hok <;> exact absurd hok (by simp)

/-- Workhorse: `get_transform` preserves cache well-formedness, and (for
zero-angle requests) its result has the requested dimensions — the natural
dimensions for a `(0, 0)` sentinel request, the literal `(w, h)` otherwise. -/
theorem gt_wf (env : Env) (hpos : PosDims env) : ∀ (N : ℕ) (st : St)
    (s : String) (f : Bool) (w h a : ℤ) (img : Image) (st' : St),
    gtMeas f w h a ≤ N → WFCache env st.cache → 0 ≤ w → 0 ≤ h →
    get_transform env st s f w h a = .ok (img, st') →
    WFCache env st'.cache ∧
    (a = 0 →
      (w = 0 ∧ h = 0 → 0 < (dims env img).1 ∧ 0 < (dims env img).2) ∧
      (¬(w = 0 ∧ h = 0) →
        ((dims env img).1 : ℤ) = w ∧ ((dims env img).2 : ℤ) = h)) := by
  intro N
  induction N using Nat.strong_induction_on with
  | _ N ih =>
    intro st s f w h a img st' hN hwf hw hh hok
    rw [get_transform_eq] at hok
    have hmainP : ∀ st2 : St, gtMain env st s f w h a = .ok (img, st2) →
        WFCache env st2.cache ∧
        (a = 0 →
          (w = 0 ∧ h = 0 → 0 < (dims env img).1 ∧ 0 < (dims env img).2) ∧
          (¬(w = 0 ∧ h = 0) →
            ((dims env img).1 : ℤ) = w ∧ ((dims env img).2 : ℤ) = h)) := by
      intro st2 hmain
      rcases gtMain_cases env st s f w h a img st2 hmain with ⟨hl, rfl⟩ |
        ⟨hmiss, hbr⟩
      · refine ⟨hwf, fun ha0 => ?_⟩
        have := hwf _ _ hl ha0
        exact ⟨this.2.2.1, this.2.2.2⟩
      · rcases hbr with ⟨ha, base, st1, hrec, himg, rfl⟩ |
          ⟨ha0, hwh, base, st1, hrec, himg, rfl⟩ |
          ⟨ha0, hw0, hh0, hf, base, st1, hrec, himg, rfl⟩ |
          ⟨ha0, hw0, hh0, hf, st1, hrec, rfl⟩
        · obtain ⟨hwf1, _⟩ := ih (gtMeas f w h 0)
            (lt_of_lt_of_le (gtMeas_rot f w h a ha) hN)
            st s f w h 0 base st1 le_rfl hwf hw hh hrec
          exact ⟨WFCache_insert env _ _ _ hwf1 (fun h0 => absurd h0 ha),
            fun ha0 => absurd ha0 ha⟩
        · subst ha0 himg
          have hnwh : ¬(w = 0 ∧ h = 0) := by
            rcases hwh with hx | hx <;> exact fun hc => hx (by omega)
          obtain ⟨hwf1, _⟩ := ih (gtMeas f 0 0 0)
            (lt_of_lt_of_le (gtMeas_scale f w h hwh) hN)
            st s f 0 0 0 base st1 le_rfl hwf le_rfl le_rfl hrec
          have hd : ((dims env (Image.smoothscale base w h)).1 : ℤ) = w ∧
              ((dims env (Image.smoothscale base w h)).2 : ℤ) = h := by
            simp only [dims]
            omega
          refine ⟨WFCache_insert env _ _ _ hwf1 ?_, fun _ =>
            ⟨fun hc => absurd hc hnwh, fun _ => hd⟩⟩
          intro _
          exact ⟨hw, hh, fun hc => absurd hc hnwh, fun _ => hd⟩
        · subst ha0 hw0 hh0 hf himg
          obtain ⟨hwf1, hdims1⟩ := ih (gtMeas false 0 0 0)
            (lt_of_lt_of_le (gtMeas_flip 0 0 ⟨rfl, rfl⟩) hN)
            st s false 0 0 0 base st1 le_rfl hwf le_rfl le_rfl hrec
          have hbp := (hdims1 rfl).1 ⟨rfl, rfl⟩
          have hfp : 0 < (dims env (Image.flipH base)).1 ∧
              0 < (dims env (Image.flipH base)).2 := hbp
          refine ⟨WFCache_insert env _ _ _ hwf1 ?_, fun _ =>
            ⟨fun _ => hfp, fun hc => absurd ⟨rfl, rfl⟩ hc⟩⟩
          intro _
          exact ⟨le_refl 0, le_refl 0, fun _ => hfp,
            fun hc => absurd ⟨rfl, rfl⟩ hc⟩
        · subst ha0 hw0 hh0 hf
          obtain ⟨hwf1, hp1, hp2⟩ := load_wf env st s img st1 hpos hwf hrec
          refine ⟨WFCache_insert env _ _ _ hwf1 ?_, fun _ =>
            ⟨fun _ => ⟨hp1, hp2⟩, fun hc => absurd ⟨rfl, rfl⟩ hc⟩⟩
          intro _
          exact ⟨le_refl 0, le_refl 0, fun _ => ⟨hp1, hp2⟩,
            fun hc => absurd ⟨rfl, rfl⟩ hc⟩
    rcases gtPost_cases env s f w h a _ img st' hok with ⟨hwh, hmain⟩ |
      ⟨hw0, hh0, st2, hmain, hpost⟩
    · exact hmainP st' hmain
    · subst hw0 hh0
      obtain ⟨hwf2, hdims2⟩ := hmainP st2 hmain
      rcases hpost with ⟨ha0, rfl⟩ | ⟨ha, tmp, st3, htmp, rfl⟩
      · subst ha0
        have hpi := (hdims2 rfl).1 ⟨rfl, rfl⟩
        refine ⟨WFCache_insert env _ _ _ hwf2 ?_, hdims2⟩
        intro _
        exact ⟨Int.ofNat_nonneg _, Int.ofNat_nonneg _, fun _ => hpi,
          fun _ => ⟨rfl, rfl⟩⟩
      · obtain ⟨hwf3, _⟩ := ih (gtMeas f 0 0 0)
          (lt_of_lt_of_le (gtMeas_post f 0 0 a ha) hN)
          st2 s f 0 0 0 tmp st3 le_rfl hwf2 le_rfl le_rfl htmp
        exact ⟨WFCache_insert env _ _ _ hwf3 (fun h0 => absurd h0 ha),
          fun ha0 => absurd ha0 ha⟩

/-! ### SpriteBox -/

/-- A pygame color value (by-structure identity, as in the source). -/
inductive Color where
  | named (s : String)
  | rgb (r g b : ℕ)
deriving DecidableEq

/-- Python `int(q)`: truncation toward zero. -/
def pyTrunc (q : ℚ) : ℤ := if 0 ≤ q then q.floor else q.ceil

/-- `int(q + 0.5)`, the rounding applied to requested widths/heights in
`SpriteBox._set_key`. -/
def pyRound (q : ℚ) : ℤ := pyTrunc (q + 1 / 2)

/-- `((int(angle) % 360) + 360) % 360` from `SpriteBox._set_key` (Python `%`
on a positive modulus agrees with `Int.emod`). -/
def pyNormAngle (a : ℤ) : ℤ := ((a % 360) + 360) % 360

/-- `SpriteBox`: center position, speed, and either a cache key with its
resolved image (`key`/`image` fields, modelling `_key`/`_image`) or a flat
color (`color`, modelling `_color`); `w`/`h` model `_w`/`_h`. -/
structure SpriteBox where
  x : ℚ
  y : ℚ
  speedx : ℚ
  speedy : ℚ
  key : Option ImageKey
  image : Option Image
  color : Option Color
  w : ℚ
  h : ℚ
deriving DecidableEq

namespace SpriteBox

/-- The x coordinate of the left edge. -/
def left (b : SpriteBox) : ℚ := b.x - b.w / 2

/-- The x coordinate of the right edge. -/
def right (b : SpriteBox) : ℚ := b.x + b.w / 2

/-- The y coordinate of the top edge. -/
def top (b : SpriteBox) : ℚ := b.y - b.h / 2

/-- The y coordinate of the bottom edge. -/
def bottom (b : SpriteBox) : ℚ := b.y + b.h / 2

/-- Python `max` of two values (keeps the first argument on ties). -/
def pymax (x y : ℚ) : ℚ := if x < y then y else x

/-- `SpriteBox.overlap` (Python returns a 2-element list; modelled as a
pair). -/
def overlap (self other : SpriteBox) (padding : ℚ) (padding2? : Option ℚ) :
    ℚ × ℚ :=
  let padding2 := padding2?.getD padding
  let l := other.left - self.right - padding
  let r := self.left - other.right - padding
  let t := other.top - self.bottom - padding2
  let b := self.top - other.bottom - padding2
  let m := pymax (pymax (pymax l r) t) b
  if 0 ≤ m then (0, 0)
  else if m = l then (l, 0)
  else if m = r then (-r, 0)
  else if m = t then (0, t)
  else (0, -b)

/-- `SpriteBox.touches`. -/
def touches (self other : SpriteBox) (padding : ℚ) (padding2? : Option ℚ) :
    Bool :=
  let padding2 := padding2?.getD padding
  let l := other.left - self.right - padding
  let r := self.left - other.right - padding
  let t := other.top - self.bottom - padding2
  let b := self.top - other.bottom - padding2
  decide (pymax (pymax (pymax l r) t) b ≤ 0)

/-- `SpriteBox.move` (two-scalar form; the point form forwards to it). -/
def move (b : SpriteBox) (dx dy : ℚ) : SpriteBox :=
  { b with x := b.x + dx, y := b.y + dy }

/-- `SpriteBox.move_speed`. -/
def move_speed (b : SpriteBox) : SpriteBox := b.move b.speedx b.speedy

/-- `SpriteBox.move_to_stop_overlapping` (returns the updated `self`;
`other` is not mutated). -/
def move_to_stop_overlapping (self other : SpriteBox) (padding : ℚ)
    (padding2? : Option ℚ) : SpriteBox :=
  let o := overlap self other padding padding2?
  if o ≠ (0, 0) then
    let s1 := move self o.1 o.2
    let s2 := if o.1 * s1.speedx < 0 then { s1 with speedx := 0 } else s1
    if o.2 * s2.speedy < 0 then { s2 with speedy := 0 } else s2
  else self

/-- `SpriteBox._set_key`: round size, normalize angle, resolve the unrotated
image (to replace the `(0, 0)` sentinel by natural dimensions in the stored
key), resolve the full transform, and store key/image/size. -/
def set_key (env : Env) (st : St) (b : SpriteBox) (name : String ⊕ Image)
    (flip : Bool) (width height angle : ℚ) : Except Err (SpriteBox × St) :=
  let keyst : String × St :=
    match name with
    | .inl s => (s, st)
    | .inr surf => (idStr surf, cache_surface env st surf)
  let key := keyst.1
  let st0 := keyst.2
  let w := pyRound width
  let h := pyRound height
  let a := pyNormAngle (pyTrunc angle)
  match get_transform env st0 key flip w h 0 with
  | .error e => .error e
  | .ok (unrot, st1) =>
      let wh : ℤ × ℤ :=
        if w = 0 ∧ h = 0 then (((dims env unrot).1 : ℤ), ((dims env unrot).2 : ℤ))
        else (w, h)
      match get_transform env st1 key flip wh.1 wh.2 a with
      | .error e => .error e
      | .ok (img, st2) =>
          .ok ({ b with
            key := some (⟨key, flip, wh.1, wh.2, a⟩ : ImageKey),
            image := some img,
            color := none,
            w := ((dims env img).1 : ℚ),
            h := ((dims env img).2 : ℚ) }, st2)

end SpriteBox

namespace SpriteBox

/-- `SpriteBox.scale_by`. -/
def scale_by (env : Env) (st : St) (b : SpriteBox) (multiplier : ℚ) :
    Except Err (SpriteBox × St) :=
  match b.key with
  | none => .ok ({ b with w := b.w * multiplier, h := b.h * multiplier }, st)
  | some k =>
      set_key env st b (.inl k.key) k.flip ((k.w : ℚ) * multiplier)
        ((k.h : ℚ) * multiplier) (k.angle : ℚ)

/-- The `width` setter: `self.scale_by(value / self._w)`. -/
def set_width (env : Env) (st : St) (b : SpriteBox) (value : ℚ) :
    Except Err (SpriteBox × St) :=
  scale_by env st b (value / b.w)

/-- The `height` setter: `self.scale_by(value / self._h)`. -/
def set_height (env : Env) (st : St) (b : SpriteBox) (value : ℚ) :
    Except Err (SpriteBox × St) :=
  scale_by env st b (value / b.h)

/-- The `size` setter. -/
def set_size (env : Env) (st : St) (b : SpriteBox) (value : ℚ × ℚ) :
    Except Err (SpriteBox × St) :=
  if b.image ≠ none ∧ b.key ≠ none then
    match b.key with
    | some k => set_key env st b (.inl k.key) k.flip value.1 value.2 (k.angle : ℚ)
    | none => .ok ({ b with w := value.1, h := value.2 }, st)
  else .ok ({ b with w := value.1, h := value.2 }, st)

/-- The `image` setter. -/
def set_image (env : Env) (st : St) (b : SpriteBox) (value : String ⊕ Image) :
    Except Err (SpriteBox × St) :=
  match b.key with
  | some k => set_key env st b value k.flip (k.w : ℚ) (k.h : ℚ) (k.angle : ℚ)
  | none => set_key env st b value false 0 0 0

/-- The `color` setter: clears cache backing and switches to a flat box. -/
def set_color (b : SpriteBox) (value : Color) : SpriteBox :=
  { b with image := none, key := none, color := some value }

/-- `SpriteBox.flip`: toggles the flip flag. -/
def flip (env : Env) (st : St) (b : SpriteBox) : Except Err (SpriteBox × St) :=
  match b.key with
  | none => .ok (b, st)
  | some k =>
      set_key env st b (.inl k.key) (!k.flip) (k.w : ℚ) (k.h : ℚ) (k.angle : ℚ)

/-- `SpriteBox.rotate`. -/
def rotate (env : Env) (st : St) (b : SpriteBox) (angle : ℚ) :
    Except Err (SpriteBox × St) :=
  match b.key with
  | none => .ok (b, st)
  | some k =>
      set_key env st b (.inl k.key) k.flip (k.w : ℚ) (k.h : ℚ)
        ((k.angle : ℚ) + angle)

/-- `SpriteBox.full_size`: re-resolve with the natural-size sentinel. -/
def full_size (env : Env) (st : St) (b : SpriteBox) :
    Except Err (SpriteBox × St) :=
  match b.key with
  | none => .ok (b, st)
  | some k => set_key env st b (.inl k.key) k.flip 0 0 (k.angle : ℚ)

/-- `SpriteBox.__init__` with an image argument and no explicit size. -/
def init_box (env : Env) (st : St) (x y : ℚ) (img : Image) :
    Except Err (SpriteBox × St) :=
  set_key env st ⟨x, y, 0, 0, none, none, none, 0, 0⟩ (.inr img) false 0 0 0

/-- `SpriteBox.from_image`: load (or register) the source, then construct. -/
def from_image (env : Env) (st : St) (x y : ℚ) (src : String ⊕ Image) :
    Except Err (SpriteBox × St) :=
  match src with
  | .inl s =>
      match load_filename_or_url env st s with
      | .error e => .error e
      | .ok (img, st1) => init_box env st1 x y img
  | .inr surf => init_box env (cache_surface env st surf) x y surf

end SpriteBox

namespace SpriteBox

theorem le_pymax_left (x y : ℚ) : x ≤ pymax x y := by
  unfold pymax
  split_ifs with hx
  · exact hx.le
  · exact le_refl x

theorem le_pymax_right (x y : ℚ) : y ≤ pymax x y := by
  unfold pymax
  split_ifs with hx
  · exact le_refl y
  · exact not_lt.mp hx

theorem pymax_eq_max (x y : ℚ) : pymax x y = max x y := by
  unfold pymax
  split_ifs with hx
  · exact (max_eq_right hx.le).symm
  · exact (max_eq_left (not_lt.mp hx)).symm

theorem pymax4_ge (l r t b : ℚ) :
    l ≤ pymax (pymax (pymax l r) t) b ∧ r ≤ pymax (pymax (pymax l r) t) b ∧
    t ≤ pymax (pymax (pymax l r) t) b ∧ b ≤ pymax (pymax (pymax l r) t) b := by
  refine ⟨?_, ?_, ?_, ?_⟩
  · exact le_trans (le_trans (le_pymax_left l r) (le_pymax_left _ t))
      (le_pymax_left _ b)
  · exact le_trans (le_trans (le_pymax_right l r) (le_pymax_left _ t))
      (le_pymax_left _ b)
  · exact le_trans (le_pymax_right _ t) (le_pymax_left _ b)
  · exact le_pymax_right _ b

/-- After translating `self` by the push returned by `overlap`, the padded
boxes no longer overlap: `overlap` returns `(0, 0)`. -/
theorem overlap_after_push (s o : SpriteBox) (p : ℚ) (p2? : Option ℚ)
    (s' : SpriteBox)
    (hx : s'.x = s.x + (overlap s o p p2?).1)
    (hy : s'.y = s.y + (overlap s o p p2?).2)
    (hw : s'.w = s.w) (hh : s'.h = s.h) :
    overlap s' o p p2? = (0, 0) := by
  unfold overlap at hx hy ⊢
  simp only [left, right, top, bottom, hw, hh] at hx hy ⊢
  split_ifs at hx hy with h1 h2 h3 h4
  all_goals simp only [] at hx hy
  all_goals rw [if_pos]
  -- in each case one of the four components of the new maximum is zero
  · -- no overlap: push is (0, 0), geometry unchanged
    rw [hx, hy]
    simpa using h1
  · -- pushed left by l: the new l component is 0
    have h := (pymax4_ge (o.x - o.w / 2 - (s'.x + s.w / 2) - p)
      (s'.x - s.w / 2 - (o.x + o.w / 2) - p)
      (o.y - o.h / 2 - (s'.y + s.h / 2) - (p2?.getD p))
      (s'.y - s.h / 2 - (o.y + o.h / 2) - (p2?.getD p))).1
    refine le_trans (le_of_eq ?_) h
    rw [hx]
    ring
  · -- pushed right by -r: the new r component is 0
    have h := (pymax4_ge (o.x - o.w / 2 - (s'.x + s.w / 2) - p)
      (s'.x - s.w / 2 - (o.x + o.w / 2) - p)
      (o.y - o.h / 2 - (s'.y + s.h / 2) - (p2?.getD p))
      (s'.y - s.h / 2 - (o.y + o.h / 2) - (p2?.getD p))).2.1
    refine le_trans (le_of_eq ?_) h
    rw [hx]
    ring
  · -- pushed up by t: the new t component is 0
    have h := (pymax4_ge (o.x - o.w / 2 - (s'.x + s.w / 2) - p)
      (s'.x - s.w / 2 - (o.x + o.w / 2) - p)
      (o.y - o.h / 2 - (s'.y + s.h / 2) - (p2?.getD p))
      (s'.y - s.h / 2 - (o.y + o.h / 2) - (p2?.getD p))).2.2.1
    refine le_trans (le_of_eq ?_) h
    rw [hy]
    ring
  · -- pushed down by -b: the new b component is 0
    have h := (pymax4_ge (o.x - o.w / 2 - (s'.x + s.w / 2) - p)
      (s'.x - s.w / 2 - (o.x + o.w / 2) - p)
      (o.y - o.h / 2 - (s'.y + s.h / 2) - (p2?.getD p))
      (s'.y - s.h / 2 - (o.y + o.h / 2) - (p2?.getD p))).2.2.2
    refine le_trans (le_of_eq ?_) h
    rw [hy]
    ring

end SpriteBox

/-- Spec-side restatement of the `overlap` contract, written from the claim's
words: `l/r/t/b` gaps, `m = max(l, r, t, b)`, `(0, 0)` when `m ≥ 0`, else the
single-axis push chosen by which of `l`, `r`, `t`, `b` equals `m`, ties broken
in that fixed order. -/
def overlapSpec (self other : SpriteBox) (paddingX paddingY : ℚ) : ℚ × ℚ :=
  let l := other.left - self.right - paddingX
  let r := self.left - other.right - paddingX
  let t := other.top - self.bottom - paddingY
  let b := self.top - other.bottom - paddingY
  let m := max l (max r (max t b))
  if 0 ≤ m then (0, 0)
  else if m = l then (l, 0)
  else if m = r then (-r, 0)
  else if m = t then (0, t)
  else (0, -b)

/-- A 10×10 flat box centered at `(cx, 0)` (the claim's boundary scenario). -/
def box10 (cx : ℚ) : SpriteBox :=
  ⟨cx, 0, 0, 0, none, none, some (Color.named "red"), 10, 10⟩

/-- C7: `overlap` computes exactly the claimed l/r/t/b/m formula with ties
broken in the fixed order l, r, t, b, and `touches` holds exactly when
`m ≤ 0`; two 10×10 boxes centered at `(0, 0)` and `(20, 0)` with padding 0 do
not touch and have overlap `(0, 0)`, while moving the second box to
`x = 9.99` makes them touch with a push purely on the x-axis. -/
theorem c7_overlap_touches_formula :
    (∀ (self other : SpriteBox) (px py : ℚ),
      overlapSpec self other px py = SpriteBox.overlap self other px (some py) ∧
      (SpriteBox.touches self other px (some py) = true ↔
        max (other.left - self.right - px)
          (max (self.left - other.right - px)
            (max (other.top - self.bottom - py)
              (self.top - other.bottom - py))) ≤ 0)) ∧
    SpriteBox.touches (box10 0) (box10 20) 0 none = false ∧
    SpriteBox.overlap (box10 0) (box10 20) 0 none = (0, 0) ∧
    SpriteBox.touches (box10 0) (box10 (999 / 100)) 0 none = true ∧
    (SpriteBox.overlap (box10 0) (box10 (999 / 100)) 0 none).1 ≠ 0 ∧
    (SpriteBox.overlap (box10 0) (box10 (999 / 100)) 0 none).2 = 0 := by
  refine ⟨fun self other px py => ⟨?_, ?_⟩, ?_, ?_, ?_, ?_, ?_⟩
  · simp only [overlapSpec, SpriteBox.overlap, SpriteBox.pymax_eq_max,
      Option.getD_some, max_assoc]
  · simp only [SpriteBox.touches, SpriteBox.pymax_eq_max, Option.getD_some,
      decide_eq_true_eq]
    rw [max_assoc, max_assoc]
  all_goals
    norm_num [SpriteBox.touches, SpriteBox.overlap, box10, SpriteBox.pymax,
      SpriteBox.left, SpriteBox.right, SpriteBox.top, SpriteBox.bottom,
      Option.getD, decide_eq_true_eq, decide_eq_false_iff_not]

/-- C8: `move_to_stop_overlapping` is idempotent — after one application the
pair's `overlap` is `(0, 0)`, so an immediately repeated application with the
same arguments leaves position and speed unchanged. -/
theorem c8_move_to_stop_overlapping_idempotent (s o : SpriteBox) (p : ℚ)
    (p2? : Option ℚ) :
    SpriteBox.overlap (SpriteBox.move_to_stop_overlapping s o p p2?) o p p2? =
      (0, 0) ∧
    SpriteBox.move_to_stop_overlapping
        (SpriteBox.move_to_stop_overlapping s o p p2?) o p p2? =
      SpriteBox.move_to_stop_overlapping s o p p2? := by
  have hafter : SpriteBox.overlap
      (SpriteBox.move_to_stop_overlapping s o p p2?) o p p2? = (0, 0) := by
    refine SpriteBox.overlap_after_push s o p p2? _ ?_ ?_ ?_ ?_
    all_goals
      unfold SpriteBox.move_to_stop_overlapping
      try simp only []
      split_ifs with hne <;>
        first
          | rfl
          | (simp only [SpriteBox.move])
          | (rw [not_not.mp hne]; simp)
  refine ⟨hafter, ?_⟩
  conv_lhs => rw [SpriteBox.move_to_stop_overlapping]
  rw [hafter]
  simp

/-- C9: `move` and `move_speed` are pure translations — position changes by
the given delta (resp. the stored speed) and every other field (size, speed,
color, cache key, resolved image) is unchanged; neither function takes or
returns the shared image cache state. -/
theorem c9_move_pure_translation (b : SpriteBox) (dx dy : ℚ) :
    (b.move dx dy).x = b.x + dx ∧ (b.move dx dy).y = b.y + dy ∧
    (b.move dx dy).speedx = b.speedx ∧ (b.move dx dy).speedy = b.speedy ∧
    (b.move dx dy).w = b.w ∧ (b.move dx dy).h = b.h ∧
    (b.move dx dy).key = b.key ∧ (b.move dx dy).image = b.image ∧
    (b.move dx dy).color = b.color ∧
    b.move_speed = b.move b.speedx b.speedy ∧
    b.move_speed.x = b.x + b.speedx ∧ b.move_speed.y = b.y + b.speedy ∧
    b.move_speed.speedx = b.speedx ∧ b.move_speed.speedy = b.speedy ∧
    b.move_speed.w = b.w ∧ b.move_speed.h = b.h ∧
    b.move_speed.key = b.key ∧ b.move_speed.image = b.image ∧
    b.move_speed.color = b.color :=
  ⟨rfl, rfl, rfl, rfl, rfl, rfl, rfl, rfl, rfl, rfl, rfl, rfl, rfl, rfl, rfl,
    rfl, rfl, rfl, rfl⟩

/-! ### Concrete environments and evaluation lemmas for witnesses -/

/-- A concrete environment: every path exists and decodes to a 3×2 image. -/
def env0 : Env where
  natDims := fun _ => (3, 2)
  rotDims := fun d _ => d
  fileExists0 := fun _ => true
  urlBasename := fun s => s
  urlOk := fun _ => false
  decodeOk := fun _ => true
  decodeFailOS := fun _ => true

/-- The empty initial state. -/
def st0 : St := ⟨[], [], 0⟩

/-- The first decode of file `"a"`. -/
def img0 : Image := Image.decoded "a" 0

/-- State after resolving `("a", False, 0, 0, 0)` from the empty state. -/
def stA : St :=
  ⟨[(⟨"a", false, 0, 0, 0⟩, img0), (⟨"a", false, 3, 2, 0⟩, img0),
    (⟨"__id__d(a,0)", false, 0, 0, 0⟩, img0),
    (⟨"__id__d(a,0)", false, 3, 2, 0⟩, img0)], [], 1⟩

/-- State after resolving `("a", False, 3, 2, 0)` from the empty state: note
the `(a, 3, 2, 0)` entry holds the smooth-scaled image, which overwrote the
natural-size alias written by the recursive zero-size resolution. -/
def stSc : St :=
  ⟨[(⟨"a", false, 0, 0, 0⟩, img0),
    (⟨"a", false, 3, 2, 0⟩, Image.smoothscale img0 3 2),
    (⟨"__id__d(a,0)", false, 0, 0, 0⟩, img0),
    (⟨"__id__d(a,0)", false, 3, 2, 0⟩, img0)], [], 1⟩

theorem idStr_img0 : idStr (Image.decoded "a" 0) = "__id__d(a,0)" := rfl

theorem str_a_ne_id : ("a" : String) = "__id__d(a,0)" ↔ False := by
  simp only [iff_false]
  decide

theorem str_id_ne_a : ("__id__d(a,0)" : String) = "a" ↔ False := by
  simp only [iff_false]
  decide

theorem eval_a000 : get_transform env0 st0 "a" false 0 0 0 = .ok (img0, stA) := by
  simp [get_transform, lookupC, insertC, load_filename_or_url, get_filename,
    get_url, decodeImage, cache_surface, fileExistsSt, dims,
    env0, st0, img0, stA, idStr_img0, str_a_ne_id, str_id_ne_a]

theorem eval_a320 : get_transform env0 st0 "a" false 3 2 0 =
    .ok (Image.smoothscale img0 3 2, stSc) := by
  simp [get_transform, lookupC, insertC, load_filename_or_url, get_filename,
    get_url, decodeImage, cache_surface, fileExistsSt, dims,
    env0, st0, img0, stSc, idStr_img0, str_a_ne_id, str_id_ne_a]

theorem eval_a000_stSc : get_transform env0 stSc "a" false 0 0 0 =
    .ok (img0, stA) := by
  simp [get_transform, lookupC, insertC, load_filename_or_url, get_filename,
    get_url, decodeImage, cache_surface, fileExistsSt, dims,
    env0, stSc, img0, stA, idStr_img0, str_a_ne_id, str_id_ne_a]

theorem eval_a320_stA : get_transform env0 stA "a" false 3 2 0 =
    .ok (img0, stA) := by
  simp [get_transform, lookupC, insertC, load_filename_or_url, get_filename,
    get_url, decodeImage, cache_surface, fileExistsSt, dims,
    env0, img0, stA, idStr_img0, str_a_ne_id, str_id_ne_a]

/-! ### C2 -/

/-- C2 counterexample: three calls, the first and third with equal arguments
`("a", False, 3, 2, 0)`.  The first returns the smooth-scaled image; the
intervening natural-size call's aliasing post-step overwrites the
`(a, 3, 2, 0)` entry with the natural image, so the third call returns a
different object than the first.  Two calls with equal arguments do not, in
general, return the same image. -/
theorem c2_counterexample :
    get_transform env0 st0 "a" false 3 2 0 =
      .ok (Image.smoothscale img0 3 2, stSc) ∧
    get_transform env0 stSc "a" false 0 0 0 = .ok (img0, stA) ∧
    get_transform env0 stA "a" false 3 2 0 = .ok (img0, stA) ∧
    Image.smoothscale img0 3 2 ≠ img0 :=
  ⟨eval_a320, eval_a000_stSc, eval_a320_stA, by simp [img0]⟩

/-- C2 (amended): an immediately repeated `get_transform` call — re-run from
the state the first call produced, with equal arguments — returns the
identical cached image and leaves the entire state (in particular the cache
and its key set) unchanged. -/
theorem c2_immediate_repeat_identity (env : Env) (st : St) (s : String)
    (f : Bool) (w h a : ℤ) (img : Image) (st' : St)
    (hok : get_transform env st s f w h a = .ok (img, st')) :
    get_transform env st' s f w h a = .ok (img, st') :=
  get_transform_done env st' s f w h a img (gt_done env st s f w h a img st' hok)

/-- Witness for C2 (amended) at a concrete input. -/
theorem c2_immediate_repeat_identity_witness :
    get_transform env0 st0 "a" false 3 2 0 =
      .ok (Image.smoothscale img0 3 2, stSc) ∧
    get_transform env0 stSc "a" false 3 2 0 =
      .ok (Image.smoothscale img0 3 2, stSc) :=
  ⟨eval_a320,
    c2_immediate_repeat_identity env0 st0 "a" false 3 2 0 _ _ eval_a320⟩

/-! ### C3 -/

/-- C3: a `get_transform` call with the `(0, 0)` natural-size sentinel also
caches its result under the key whose width/height are the pixel dimensions
of the zero-angle same-flip intermediate (which itself re-resolves without
any change of state); consequently, after `getTransform(src, false, 0, 0, 0)`
returns an image of non-empty size `(W, H)`, a subsequent
`getTransform(src, false, W, H, 0)` returns the identical image object and
leaves the state untouched (no scaling is performed). -/
theorem c3_natural_size_aliasing (env : Env) (st : St) (s : String) (f : Bool)
    (a : ℤ) (img : Image) (st' : St)
    (hok : get_transform env st s f 0 0 a = .ok (img, st')) :
    (∃ tmp, get_transform env st' s f 0 0 0 = .ok (tmp, st') ∧
      lookupC st'.cache
        ⟨s, f, ((dims env tmp).1 : ℤ), ((dims env tmp).2 : ℤ), a⟩ = some img) ∧
    (a = 0 → ¬((dims env img).1 = 0 ∧ (dims env img).2 = 0) →
      get_transform env st' s f ((dims env img).1 : ℤ) ((dims env img).2 : ℤ) 0 =
        .ok (img, st')) := by
  have hd := gt_done env st s f 0 0 a img st' hok
  obtain ⟨hd1, hd2⟩ := hd
  obtain ⟨tmp, htm1, htm2, htm3⟩ := hd2 ⟨rfl, rfl⟩
  constructor
  · refine ⟨tmp, ?_, htm3⟩
    exact get_transform_done_zero env st' s f tmp ⟨htm1, fun _ => ⟨tmp, htm1, htm2, htm2⟩⟩
  · intro ha hWH
    subst ha
    rw [hd1] at htm1
    have hti : tmp = img := by injection htm1 with hx; exact hx.symm
    rw [hti] at htm2
    refine get_transform_hit env st' s f _ _ 0 img htm2 ?_
    intro hc
    apply hWH
    constructor <;> omega

/-- Witness for C3 at a concrete input: the natural-size resolution of `"a"`
yields a 3×2 image, and a follow-up literal 3×2 request is a pure hit
returning the identical object. -/
theorem c3_natural_size_aliasing_witness :
    get_transform env0 st0 "a" false 0 0 0 = .ok (img0, stA) ∧
    ¬((dims env0 img0).1 = 0 ∧ (dims env0 img0).2 = 0) ∧
    get_transform env0 stA "a" false ((dims env0 img0).1 : ℤ)
      ((dims env0 img0).2 : ℤ) 0 = .ok (img0, stA) :=
  ⟨eval_a000, by simp [dims, env0, img0],
    (c3_natural_size_aliasing env0 st0 "a" false 0 img0 stA eval_a000).2 rfl
      (by simp [dims, env0, img0])⟩

/-! ### C1 -/

/-- C1: on a cache miss, `get_transform` resolves by exactly the claimed case
order — rotate the zero-angle resolution when `angle ≠ 0`; else smooth-scale
the natural-size same-flip resolution when `w ≠ 0 or h ≠ 0`; else mirror the
unflipped resolution when `flip`; else delegate to the image source
resolver — and in every case the computed image ends up cached under the
requested key when it is returned. -/
theorem c1_resolution_case_order (env : Env) (st : St) (s : String) (f : Bool)
    (w h a : ℤ) (img : Image) (st' : St)
    (hmiss : lookupC st.cache ⟨s, f, w, h, a⟩ = none)
    (hok : get_transform env st s f w h a = .ok (img, st')) :
    (a ≠ 0 → ∃ base st1, get_transform env st s f w h 0 = .ok (base, st1) ∧
      img = .rotozoom base a) ∧
    (a = 0 → (w ≠ 0 ∨ h ≠ 0) →
      ∃ base st1, get_transform env st s f 0 0 0 = .ok (base, st1) ∧
      img = .smoothscale base w h) ∧
    (a = 0 → w = 0 → h = 0 → f = true →
      ∃ base st1, get_transform env st s false 0 0 0 = .ok (base, st1) ∧
      img = .flipH base) ∧
    (a = 0 → w = 0 → h = 0 → f = false →
      ∃ st1, load_filename_or_url env st s = .ok (img, st1)) ∧
    lookupC st'.cache ⟨s, f, w, h, a⟩ = some img := by
  have hins := (gt_done env st s f w h a img st' hok).1
  rw [get_transform_eq] at hok
  have hmain : ∃ st2, gtMain env st s f w h a = .ok (img, st2) := by
    rcases gtPost_cases env s f w h a _ img st' hok with ⟨_, hm⟩ |
      ⟨_, _, st2, hm, _⟩
    · exact ⟨st', hm⟩
    · exact ⟨st2, hm⟩
  obtain ⟨st2, hm⟩ := hmain
  rcases gtMain_cases env st s f w h a img st2 hm with ⟨hhit, _⟩ | ⟨_, hbr⟩
  · rw [hmiss] at hhit
    exact absurd hhit (by simp)
  · refine ⟨?_, ?_, ?_, ?_, hins⟩
    · intro ha
      rcases hbr with ⟨_, base, st1, hrec, himg, _⟩ | ⟨ha0, _⟩ |
        ⟨ha0, _⟩ | ⟨ha0, _⟩
      · exact ⟨base, st1, hrec, himg⟩
      all_goals exact absurd ha0 ha
    · intro ha0 hwh
      rcases hbr with ⟨ha, _⟩ | ⟨_, _, base, st1, hrec, himg, _⟩ |
        ⟨_, hw0, hh0, _⟩ | ⟨_, hw0, hh0, _⟩
      · exact absurd ha0 ha
      · exact ⟨base, st1, hrec, himg⟩
      all_goals
        rcases hwh with hx | hx
        · exact absurd hw0 hx
        · exact absurd hh0 hx
    · intro ha0 hw0 hh0 hft
      rcases hbr with ⟨ha, _⟩ | ⟨_, hwh, _⟩ |
        ⟨_, _, _, _, base, st1, hrec, himg, _⟩ | ⟨_, _, _, hf, _⟩
      · exact absurd ha0 ha
      · rcases hwh with hx | hx
        · exact absurd hw0 hx
        · exact absurd hh0 hx
      · exact ⟨base, st1, hrec, himg⟩
      · rw [hft] at hf
        exact absurd hf (by simp)
    · intro ha0 hw0 hh0 hff
      rcases hbr with ⟨ha, _⟩ | ⟨_, hwh, _⟩ | ⟨_, _, _, hf, _⟩ |
        ⟨_, _, _, _, st1, hrec, _⟩
      · exact absurd ha0 ha
      · rcases hwh with hx | hx
        · exact absurd hw0 hx
        · exact absurd hh0 hx
      · rw [hff] at hf
        exact absurd hf (by simp)
      · exact ⟨st1, hrec⟩

/-- State after resolving `("a", False, 0, 0, 90)` from the empty state. -/
def stB : St :=
  ⟨[(⟨"a", false, 0, 0, 0⟩, img0), (⟨"a", false, 3, 2, 0⟩, img0),
    (⟨"__id__d(a,0)", false, 0, 0, 0⟩, img0),
    (⟨"__id__d(a,0)", false, 3, 2, 0⟩, img0),
    (⟨"a", false, 0, 0, 90⟩, Image.rotozoom img0 90),
    (⟨"a", false, 3, 2, 90⟩, Image.rotozoom img0 90)], [], 1⟩

theorem eval_a90 : get_transform env0 st0 "a" false 0 0 90 =
    .ok (Image.rotozoom img0 90, stB) := by
  simp [get_transform, lookupC, insertC, load_filename_or_url, get_filename,
    get_url, decodeImage, cache_surface, fileExistsSt, dims,
    env0, st0, img0, stB, idStr_img0, str_a_ne_id, str_id_ne_a]

/-- Witness for C1 at a concrete input with a nonzero angle: the rotated
request resolves the zero-angle request and rotates it, and the result is
cached under the requested key. -/
theorem c1_resolution_case_order_witness :
    lookupC st0.cache ⟨"a", false, 0, 0, 90⟩ = none ∧
    get_transform env0 st0 "a" false 0 0 90 =
      .ok (Image.rotozoom img0 90, stB) ∧
    (∃ base st1, get_transform env0 st0 "a" false 0 0 0 = .ok (base, st1) ∧
      Image.rotozoom img0 90 = .rotozoom base 90) ∧
    lookupC stB.cache ⟨"a", false, 0, 0, 90⟩ = some (Image.rotozoom img0 90) := by
  refine ⟨rfl, eval_a90, ?_, ?_⟩
  · exact (c1_resolution_case_order env0 st0 "a" false 0 0 90 _ _ rfl
      eval_a90).1 (by decide)
  · exact (c1_resolution_case_order env0 st0 "a" false 0 0 90 _ _ rfl
      eval_a90).2.2.2.2

/-! ### C4 -/

/-- State after resolving `("a", False, 0, 0, -10)` from the empty state:
`get_transform` itself performs no angle normalization, so the entry is
stored under angle `-10`. -/
def stN : St :=
  ⟨[(⟨"a", false, 0, 0, 0⟩, img0), (⟨"a", false, 3, 2, 0⟩, img0),
    (⟨"__id__d(a,0)", false, 0, 0, 0⟩, img0),
    (⟨"__id__d(a,0)", false, 3, 2, 0⟩, img0),
    (⟨"a", false, 0, 0, -10⟩, Image.rotozoom img0 (-10)),
    (⟨"a", false, 3, 2, -10⟩, Image.rotozoom img0 (-10))], [], 1⟩

/-- State after additionally resolving `("a", False, 0, 0, 350)`. -/
def stN2 : St :=
  ⟨[(⟨"a", false, 0, 0, 0⟩, img0), (⟨"a", false, 3, 2, 0⟩, img0),
    (⟨"__id__d(a,0)", false, 0, 0, 0⟩, img0),
    (⟨"__id__d(a,0)", false, 3, 2, 0⟩, img0),
    (⟨"a", false, 0, 0, -10⟩, Image.rotozoom img0 (-10)),
    (⟨"a", false, 3, 2, -10⟩, Image.rotozoom img0 (-10)),
    (⟨"a", false, 0, 0, 350⟩, Image.rotozoom img0 350),
    (⟨"a", false, 3, 2, 350⟩, Image.rotozoom img0 350)], [], 1⟩

theorem eval_aNeg10 : get_transform env0 st0 "a" false 0 0 (-10) =
    .ok (Image.rotozoom img0 (-10), stN) := by
  simp [get_transform, lookupC, insertC, load_filename_or_url, get_filename,
    get_url, decodeImage, cache_surface, fileExistsSt, dims,
    env0, st0, img0, stN, idStr_img0, str_a_ne_id, str_id_ne_a]

theorem eval_a350 : get_transform env0 stN "a" false 0 0 350 =
    .ok (Image.rotozoom img0 350, stN2) := by
  simp [get_transform, lookupC, insertC, load_filename_or_url, get_filename,
    get_url, decodeImage, cache_surface, fileExistsSt, dims,
    env0, img0, stN, stN2, idStr_img0, str_a_ne_id, str_id_ne_a]

/-- C4 counterexample: `get_transform` does not normalize the angle before
cache lookup.  A call with angle `-10` leaves no entry under angle `350`;
the follow-up call with angle `350` therefore misses, grows the cache by two
entries, and returns a different image object — the two calls do not hit the
same cache entry. -/
theorem c4_counterexample :
    get_transform env0 st0 "a" false 0 0 (-10) =
      .ok (Image.rotozoom img0 (-10), stN) ∧
    lookupC stN.cache ⟨"a", false, 0, 0, 350⟩ = none ∧
    get_transform env0 stN "a" false 0 0 350 =
      .ok (Image.rotozoom img0 350, stN2) ∧
    Image.rotozoom img0 (-10) ≠ Image.rotozoom img0 350 ∧
    stN2.cache.length = stN.cache.length + 2 :=
  ⟨eval_aNeg10, rfl, eval_a350, by simp [img0], rfl⟩

/-- C4 (amended): angle normalization to `[0, 360)` via
`((int(angle) % 360) + 360) % 360` happens in `SpriteBox._set_key`, before
the cache is consulted — not in `get_transform` itself.  Hence `_set_key`
with angle `-10` and with angle `350` build the same normalized key and
behave identically (same cache entry, same image, same state), while direct
`get_transform` calls with `-10` and `350` use distinct cache entries. -/
theorem c4_angle_normalized_in_set_key :
    (∀ a : ℤ, 0 ≤ pyNormAngle a ∧ pyNormAngle a < 360) ∧
    pyNormAngle (-10) = 350 ∧ pyNormAngle 350 = 350 ∧
    (∀ (env : Env) (st : St) (b : SpriteBox) (s : String) (f : Bool)
      (width height : ℚ),
      SpriteBox.set_key env st b (.inl s) f width height (-10) =
        SpriteBox.set_key env st b (.inl s) f width height 350) := by
  refine ⟨fun a => ⟨Int.emod_nonneg _ (by decide), Int.emod_lt_of_pos _ (by decide)⟩,
    by decide, by decide, fun env st b s f width height => ?_⟩
  have hangle : pyNormAngle (pyTrunc (-10 : ℚ)) = pyNormAngle (pyTrunc (350 : ℚ)) := by
    decide
  simp only [SpriteBox.set_key, hangle]

/-! ### C5 -/

theorem idStr_decoded_ne (fn : String) (n : ℕ) :
    idStr (Image.decoded fn n) ≠ fn := by
  intro hc
  have hl := congrArg String.length hc
  simp only [idStr, imageTag, String.length_append,
    show ("__id__" : String).length = 6 from rfl,
    show ("d(" : String).length = 2 from rfl,
    show ("," : String).length = 1 from rfl,
    show (")" : String).length = 1 from rfl] at hl
  omega

theorem cache_surface_preserves_key (env : Env) (st : St) (surf : Image)
    (k' : ImageKey) (h0 : k'.key ≠ idStr surf) :
    lookupC (cache_surface env st surf).cache k' = lookupC st.cache k' := by
  simp only [cache_surface]
  split
  · rfl
  · simp only []
    rw [lookupC_insertC_ne _ _ _ _ (ImageKey_ne_of_key h0),
      lookupC_insertC_ne _ _ _ _ (ImageKey_ne_of_key h0)]

/-- `_get_filename` registers the decoded image under both the literal
filename key and the `(filename, width, height)` key. -/
theorem get_filename_registers (env : Env) (st : St) (fn : String)
    (img : Image) (st1 : St) (hok : get_filename env st fn = .ok (img, st1)) :
    lookupC st1.cache ⟨fn, false, 0, 0, 0⟩ = some img ∧
    lookupC st1.cache
      ⟨fn, false, ((dims env img).1 : ℤ), ((dims env img).2 : ℤ), 0⟩ =
      some img := by
  simp only [get_filename] at hok
  split at hok
  · exact absurd hok (by simp)
  · next image stD heq =>
      simp only [decodeImage] at heq
      split_ifs at heq with h1 h2
      simp only [Except.ok.injEq, Prod.mk.injEq] at heq hok
      obtain ⟨himg, hst1⟩ := hok
      subst himg
      have hne : fn ≠ idStr image := by
        have : image = Image.decoded fn st.ctr := heq.1.symm
        rw [this]
        exact (idStr_decoded_ne fn st.ctr).symm
      rw [← hst1]
      constructor
      · rw [cache_surface_preserves_key env _ image _ hne]
        exact lookupC_insertC_same _ _ _ _
          (fun _ => lookupC_insertC_self _ _ _)
      · rw [cache_surface_preserves_key env _ image _ hne]
        exact lookupC_insertC_self _ _ _

/-- C5 (amended): on a cache miss the resolver registers the decoded image
under *the resolved local filename* and its `(filename, W, H)` variant: for a
reference that exists as a local file this is the literal reference string
(as the claim states), but for a URL it is the basename-derived local
filename — the literal URL string is not registered. -/
theorem c5_registration_keys (env : Env) (st : St) (s : String) (img : Image)
    (st1 : St) (hmiss : lookupC st.cache ⟨s, false, 0, 0, 0⟩ = none)
    (hok : load_filename_or_url env st s = .ok (img, st1)) :
    (fileExistsSt env st s = true →
      lookupC st1.cache ⟨s, false, 0, 0, 0⟩ = some img ∧
      lookupC st1.cache
        ⟨s, false, ((dims env img).1 : ℤ), ((dims env img).2 : ℤ), 0⟩ =
        some img) ∧
    (fileExistsSt env st s = false →
      lookupC st1.cache ⟨env.urlBasename s, false, 0, 0, 0⟩ = some img ∧
      lookupC st1.cache ⟨env.urlBasename s, false,
        ((dims env img).1 : ℤ), ((dims env img).2 : ℤ), 0⟩ = some img) := by
  simp only [load_filename_or_url, hmiss] at hok
  constructor
  · intro hex
    rw [if_pos hex] at hok
    split at hok
    · next r heq =>
        simp only [Except.ok.injEq] at hok
        subst hok
        exact get_filename_registers env st s img st1 heq
    · next e heq => split at hok <;> exact absurd hok (by simp)
  · intro hex
    rw [if_neg (by simp [hex])] at hok
    split at hok
    · next r heq =>
        simp only [Except.ok.injEq] at hok
        subst hok
        simp only [get_url] at heq
        split_ifs at heq
        all_goals first
          | exact get_filename_registers env _ _ img st1 heq
          | exact absurd heq (by simp)
    · next e heq => split at hok <;> exact absurd hok (by simp)

/-- The concrete URL environment: nothing exists locally, every URL download
succeeds and lands in the basename-derived file `"i"`. -/
def envU : Env where
  natDims := fun _ => (3, 2)
  rotDims := fun d _ => d
  fileExists0 := fun _ => false
  urlBasename := fun _ => "i"
  urlOk := fun _ => true
  decodeOk := fun _ => true
  decodeFailOS := fun _ => true

/-- First decode of the downloaded file `"i"`. -/
def imgU : Image := Image.decoded "i" 0

/-- State after loading URL `"u/i"` once. -/
def stU : St :=
  ⟨[(⟨"i", false, 0, 0, 0⟩, imgU), (⟨"i", false, 3, 2, 0⟩, imgU),
    (⟨"__id__d(i,0)", false, 0, 0, 0⟩, imgU),
    (⟨"__id__d(i,0)", false, 3, 2, 0⟩, imgU)], ["i"], 1⟩

/-- State after loading URL `"u/i"` a second time: the file is re-decoded
(fresh object `decoded "i" 1`), overwriting the `"i"` entries. -/
def stU2 : St :=
  ⟨[(⟨"i", false, 0, 0, 0⟩, Image.decoded "i" 1),
    (⟨"i", false, 3, 2, 0⟩, Image.decoded "i" 1),
    (⟨"__id__d(i,0)", false, 0, 0, 0⟩, imgU),
    (⟨"__id__d(i,0)", false, 3, 2, 0⟩, imgU),
    (⟨"__id__d(i,1)", false, 0, 0, 0⟩, Image.decoded "i" 1),
    (⟨"__id__d(i,1)", false, 3, 2, 0⟩, Image.decoded "i" 1)], ["i"], 2⟩

theorem strU1 : ("i" : String) = "u/i" ↔ False := by
  simp only [iff_false]
  decide

theorem strU2 : ("__id__d(i,0)" : String) = "u/i" ↔ False := by
  simp only [iff_false]
  decide

theorem strU3 : ("i" : String) = "__id__d(i,0)" ↔ False := by
  simp only [iff_false]
  decide

theorem strU4 : ("i" : String) = "__id__d(i,1)" ↔ False := by
  simp only [iff_false]
  decide

theorem strU5 : ("__id__d(i,0)" : String) = "__id__d(i,1)" ↔ False := by
  simp only [iff_false]
  decide

theorem strU6 : (("i" : String) == "u/i") = false := by decide

theorem idStr_imgU0 : idStr (Image.decoded "i" 0) = "__id__d(i,0)" := rfl

theorem idStr_imgU1 : idStr (Image.decoded "i" 1) = "__id__d(i,1)" := rfl

theorem eval_url1 : load_filename_or_url envU st0 "u/i" = .ok (imgU, stU) := by
  simp [load_filename_or_url, get_filename, get_url, decodeImage,
    cache_surface, fileExistsSt, lookupC, insertC, dims, envU, st0, imgU, stU,
    idStr_imgU0, idStr_imgU1, strU1, strU2, strU3, strU4, strU5, strU6]

theorem eval_url2 : load_filename_or_url envU stU "u/i" =
    .ok (Image.decoded "i" 1, stU2) := by
  simp [load_filename_or_url, get_filename, get_url, decodeImage,
    cache_surface, fileExistsSt, lookupC, insertC, dims, envU, imgU, stU, stU2,
    idStr_imgU0, idStr_imgU1, strU1, strU2, strU3, strU4, strU5, strU6]

/-- C5 counterexample: after successfully resolving the URL reference
`"u/i"`, the cache holds no entry under the literal reference string — the
image was registered under the derived local filename `"i"` instead — and a
second resolution of the same reference decodes the file again, producing a
different image object. -/
theorem c5_counterexample :
    load_filename_or_url envU st0 "u/i" = .ok (imgU, stU) ∧
    lookupC stU.cache ⟨"u/i", false, 0, 0, 0⟩ = none ∧
    lookupC stU.cache ⟨"u/i", false, 3, 2, 0⟩ = none ∧
    load_filename_or_url envU stU "u/i" = .ok (Image.decoded "i" 1, stU2) ∧
    Image.decoded "i" 1 ≠ imgU := by
  refine ⟨eval_url1, ?_, ?_, eval_url2, by simp [imgU]⟩
  · simp [lookupC, stU, imgU, strU1, strU2]
  · simp [lookupC, stU, imgU, strU1, strU2]

theorem eval_load_a : load_filename_or_url env0 st0 "a" = .ok (img0, stA) := by
  simp [load_filename_or_url, get_filename, get_url, decodeImage,
    cache_surface, fileExistsSt, lookupC, insertC, dims, env0, st0, img0, stA,
    idStr_img0, str_a_ne_id, str_id_ne_a]

/-- Witness for C5 (amended) at a concrete input: for a local file reference
the two registered keys are the literal reference and its
natural-dimensions variant. -/
theorem c5_registration_keys_witness :
    lookupC st0.cache ⟨"a", false, 0, 0, 0⟩ = none ∧
    load_filename_or_url env0 st0 "a" = .ok (img0, stA) ∧
    fileExistsSt env0 st0 "a" = true ∧
    lookupC stA.cache ⟨"a", false, 0, 0, 0⟩ = some img0 ∧
    lookupC stA.cache ⟨"a", false, ((dims env0 img0).1 : ℤ),
      ((dims env0 img0).2 : ℤ), 0⟩ = some img0 := by
  refine ⟨rfl, eval_load_a, rfl, ?_, ?_⟩
  · exact ((c5_registration_keys env0 st0 "a" img0 stA rfl eval_load_a).1 rfl).1
  · exact ((c5_registration_keys env0 st0 "a" img0 stA rfl eval_load_a).1 rfl).2

/-! ### C6 -/

/-- Environment in which `"c"` exists locally but holds corrupt image data:
the decoder raises `pygame.error`, which is not an `OSError` subclass. -/
def envC : Env where
  natDims := fun _ => (3, 2)
  rotDims := fun d _ => d
  fileExists0 := fun _ => true
  urlBasename := fun s => s
  urlOk := fun _ => false
  decodeOk := fun _ => false
  decodeFailOS := fun _ => false

/-- C6 counterexample: a corrupt local image raises the decoder's
`pygame.error`, which escapes `load_filename_or_url` unwrapped (the `except`
clause catches `OSError` only) — the resolver does not raise exactly one
error type on every failure. -/
theorem c6_counterexample :
    load_filename_or_url envC st0 "c" = .error Err.pygameError ∧
    Err.pygameError ≠ Err.valueError "c" := by
  refine ⟨?_, by decide⟩
  simp [load_filename_or_url, get_filename, get_url, decodeImage,
    cache_surface, fileExistsSt, lookupC, insertC, envC, st0]

/-- C6 (amended): on a cache miss, failures of the underlying fetch that are
`OSError`s (missing file, network failure) are re-raised as the single
`ValueError` whose message contains the original reference string; failures
that are not `OSError`s (the decoder's corrupt-data `pygame.error`) propagate
unchanged; and on success no error is raised. -/
theorem c6_oserror_wrapping (env : Env) (st : St) (s : String)
    (hmiss : lookupC st.cache ⟨s, false, 0, 0, 0⟩ = none) :
    ((if fileExistsSt env st s then get_filename env st s
      else get_url env st s) = .error Err.osError →
      load_filename_or_url env st s = .error (Err.valueError s)) ∧
    (∀ e, (if fileExistsSt env st s then get_filename env st s
      else get_url env st s) = .error e → e ≠ Err.osError →
      load_filename_or_url env st s = .error e) ∧
    (∀ img st1, (if fileExistsSt env st s then get_filename env st s
      else get_url env st s) = .ok (img, st1) →
      load_filename_or_url env st s = .ok (img, st1)) ∧
    errMsg (Err.valueError s) =
      "An error occurred while fetching image, are you sure the file/website name is \"" ++
        s ++ "\"?" := by
  refine ⟨?_, ?_, ?_, rfl⟩
  · intro he
    simp [load_filename_or_url, hmiss, he]
  · intro e he hne
    cases e with
    | valueError r => simp [load_filename_or_url, hmiss, he]
    | osError => exact absurd rfl hne
    | pygameError => simp [load_filename_or_url, hmiss, he]
  · intro img st1 he
    simp [load_filename_or_url, hmiss, he]

/-- Witness for C6 (amended) at a concrete input: the corrupt-image failure
propagates unchanged, and the wrapped message contains the reference. -/
theorem c6_oserror_wrapping_witness :
    lookupC st0.cache ⟨"c", false, 0, 0, 0⟩ = none ∧
    (if fileExistsSt envC st0 "c" then get_filename envC st0 "c"
      else get_url envC st0 "c") = .error Err.pygameError ∧
    Err.pygameError ≠ Err.osError ∧
    load_filename_or_url envC st0 "c" = .error Err.pygameError ∧
    errMsg (Err.valueError "c") =
      "An error occurred while fetching image, are you sure the file/website name is \"" ++
        "c" ++ "\"?" := by
  have he : (if fileExistsSt envC st0 "c" then get_filename envC st0 "c"
      else get_url envC st0 "c") = .error Err.pygameError := by
    simp [get_filename, get_url, decodeImage, fileExistsSt, envC, st0]
  refine ⟨rfl, he, by decide, ?_, ?_⟩
  · exact (c6_oserror_wrapping envC st0 "c" rfl).2.1 Err.pygameError he
      (by decide)
  · exact (c6_oserror_wrapping envC st0 "c" rfl).2.2.2

/-! ### C10 -/

theorem rat_floor_eq_intFloor (q : ℚ) : q.floor = ⌊q⌋ := rfl

theorem pyRound_nonneg (q : ℚ) (h : 0 ≤ q) : 0 ≤ pyRound q := by
  unfold pyRound pyTrunc
  rw [if_pos (by linarith : (0 : ℚ) ≤ q + 1 / 2), rat_floor_eq_intFloor]
  exact Int.floor_nonneg.mpr (by linarith)

/-- The stored-key invariant of a cache-backed `SpriteBox` in state `st`: the
box holds a key and a resolved image; the key's width/height are not the
`(0, 0)` sentinel and re-resolving the key at angle `0` in the current state
yields (without modifying the state) an image whose pixel dimensions are
exactly the key's; and the box's stored size is the displayed image's. -/
def keyInv (env : Env) (b : SpriteBox) (st : St) : Prop :=
  ∃ k img, b.key = some k ∧ b.image = some img ∧
    ¬(k.w = 0 ∧ k.h = 0) ∧
    (∃ unrot, get_transform env st k.key k.flip k.w k.h 0 = .ok (unrot, st) ∧
      ((dims env unrot).1 : ℤ) = k.w ∧ ((dims env unrot).2 : ℤ) = k.h) ∧
    b.w = ((dims env img).1 : ℚ) ∧ b.h = ((dims env img).2 : ℚ)

/-- Core of the `_set_key` invariant: after resolving the unrotated image,
replacing the sentinel by its dimensions and resolving the final transform,
the cache is still well-formed, the stored width/height are not the sentinel
and the zero-angle resolution of the stored key is a pure hit with exactly
those dimensions. -/
theorem set_key_core (env : Env) (hpos : PosDims env) (st0 st1 st2 : St)
    (hwf0 : WFCache env st0.cache) (key : String) (f : Bool) (w h a : ℤ)
    (hw : 0 ≤ w) (hh : 0 ≤ h) (unrot img : Image)
    (h1 : get_transform env st0 key f w h 0 = .ok (unrot, st1))
    (wh : ℤ × ℤ)
    (hwh : wh = if w = 0 ∧ h = 0
      then (((dims env unrot).1 : ℤ), ((dims env unrot).2 : ℤ)) else (w, h))
    (h2 : get_transform env st1 key f wh.1 wh.2 a = .ok (img, st2)) :
    WFCache env st2.cache ∧ ¬(wh.1 = 0 ∧ wh.2 = 0) ∧
    (∃ u, get_transform env st2 key f wh.1 wh.2 0 = .ok (u, st2) ∧
      ((dims env u).1 : ℤ) = wh.1 ∧ ((dims env u).2 : ℤ) = wh.2) := by
  obtain ⟨hwf1, hdims1⟩ :=
    gt_wf env hpos (gtMeas f w h 0) st0 key f w h 0 unrot st1 le_rfl hwf0 hw hh h1
  have hd1 := gt_done env st0 key f w h 0 unrot st1 h1
  -- the zero-angle entry of the stored size is present in st1 with the
  -- right dimensions
  have hfacts : lookupC st1.cache ⟨key, f, wh.1, wh.2, 0⟩ = some unrot ∧
      ((dims env unrot).1 : ℤ) = wh.1 ∧ ((dims env unrot).2 : ℤ) = wh.2 ∧
      ¬(wh.1 = 0 ∧ wh.2 = 0) ∧ 0 ≤ wh.1 ∧ 0 ≤ wh.2 := by
    by_cases h00 : w = 0 ∧ h = 0
    · obtain ⟨hw0, hh0⟩ := h00
      subst hw0 hh0
      rw [if_pos ⟨rfl, rfl⟩] at hwh
      subst hwh
      have hp := (hdims1 rfl).1 ⟨rfl, rfl⟩
      obtain ⟨tmp, htm1, htm2, _⟩ := hd1.2 ⟨rfl, rfl⟩
      rw [hd1.1] at htm1
      have htmu : tmp = unrot := by injection htm1 with hx; exact hx.symm
      rw [htmu] at htm2
      refine ⟨htm2, rfl, rfl, ?_, Int.ofNat_nonneg _, Int.ofNat_nonneg _⟩
      intro hc
      omega
    · rw [if_neg h00] at hwh
      subst hwh
      obtain ⟨hd1w, hd1h⟩ := (hdims1 rfl).2 h00
      exact ⟨hd1.1, hd1w, hd1h, h00, hw, hh⟩
  obtain ⟨hlook1, hdw, hdh, hnz, hnn1, hnn2⟩ := hfacts
  obtain ⟨hwf2, _⟩ := gt_wf env hpos (gtMeas f wh.1 wh.2 a) st1 key f wh.1
    wh.2 a img st2 le_rfl hwf1 hnn1 hnn2 h2
  refine ⟨hwf2, hnz, ?_⟩
  by_cases ha0 : a = 0
  · subst ha0
    -- same call: re-running from st2 is the identity
    have hidem := get_transform_done env st2 key f wh.1 wh.2 0 img
      (gt_done env st1 key f wh.1 wh.2 0 img st2 h2)
    obtain ⟨hdimg1, hdimg2⟩ :=
      ((gt_wf env hpos (gtMeas f wh.1 wh.2 0) st1 key f wh.1 wh.2 0 img st2
        le_rfl hwf1 hnn1 hnn2 h2).2 rfl).2 hnz
    exact ⟨img, hidem, hdimg1, hdimg2⟩
  · -- nonzero angle: the angle branch leaves the zero-angle entry intact
    rw [get_transform_eq] at h2
    rcases gtPost_cases env key f wh.1 wh.2 a _ img st2 h2 with ⟨_, hmain⟩ |
      ⟨hz1, hz2, _, _, _⟩
    · rcases gtMain_cases env st1 key f wh.1 wh.2 a img st2 hmain with
        ⟨_, rfl⟩ | ⟨_, hbr⟩
      · refine ⟨unrot, get_transform_hit env _ key f wh.1 wh.2 0 unrot
          hlook1 hnz, hdw, hdh⟩
      · rcases hbr with ⟨_, base, st1', hrec, _, rfl⟩ | ⟨ha2, _⟩ |
          ⟨ha2, _⟩ | ⟨ha2, _⟩
        · rw [get_transform_hit env st1 key f wh.1 wh.2 0 unrot hlook1 hnz]
            at hrec
          have hbase : base = unrot ∧ st1' = st1 := by
            simp only [Except.ok.injEq, Prod.mk.injEq] at hrec
            exact ⟨hrec.1.symm, hrec.2.symm⟩
          obtain ⟨hbase1, hbase2⟩ := hbase
          rw [hbase2]
          refine ⟨unrot, get_transform_hit env _ key f wh.1 wh.2 0 unrot ?_
            hnz, hdw, hdh⟩
          show lookupC (insertC st1.cache ⟨key, f, wh.1, wh.2, a⟩ _) _ = _
          rw [lookupC_insertC_ne _ _ _ _
            (ImageKey_ne_of_angle (fun hc => ha0 hc.symm))]
          exact hlook1
        all_goals exact absurd ha2 ha0
    · exact absurd ⟨hz1, hz2⟩ hnz

/-- `_set_key` establishes the stored-key invariant (given a well-formed
cache, nonnegative requested size, and — for a directly supplied surface —
non-empty dimensions) and preserves cache well-formedness. -/
theorem set_key_inv (env : Env) (st : St) (b : SpriteBox)
    (name : String ⊕ Image) (f : Bool) (width height angle : ℚ)
    (hpos : PosDims env) (hwf : WFCache env st.cache)
    (hw : 0 ≤ width) (hh : 0 ≤ height)
    (hsurf : ∀ surf, name = .inr surf →
      0 < (dims env surf).1 ∧ 0 < (dims env surf).2)
    (b' : SpriteBox) (st2 : St)
    (hok : SpriteBox.set_key env st b name f width height angle =
      .ok (b', st2)) :
    keyInv env b' st2 ∧ WFCache env st2.cache := by
  cases name with
  | inl s =>
      simp only [SpriteBox.set_key] at hok
      split at hok
      · exact absurd hok (by simp)
      · next unrot st1 h1 =>
          split at hok
          · exact absurd hok (by simp)
          · next img st2f h2 =>
              simp only [Except.ok.injEq, Prod.mk.injEq] at hok
              obtain ⟨hb', hst2⟩ := hok
              obtain ⟨hwf2, hnz, u, hu, hud1, hud2⟩ := set_key_core env hpos
                st st1 st2f hwf s f (pyRound width) (pyRound height)
                (pyNormAngle (pyTrunc angle))
                (pyRound_nonneg width hw) (pyRound_nonneg height hh)
                unrot img h1 _ rfl h2
              subst hst2
              set wh : ℤ × ℤ := (if pyRound width = 0 ∧ pyRound height = 0
                then (((dims env unrot).1 : ℤ), ((dims env unrot).2 : ℤ))
                else (pyRound width, pyRound height)) with hwh_def
              refine ⟨⟨⟨s, f, wh.1, wh.2, pyNormAngle (pyTrunc angle)⟩, img,
                ?_, ?_, hnz, ⟨u, hu, hud1, hud2⟩, ?_, ?_⟩, hwf2⟩
              all_goals rw [← hb']
  | inr surf =>
      simp only [SpriteBox.set_key] at hok
      split at hok
      · exact absurd hok (by simp)
      · next unrot st1 h1 =>
          split at hok
          · exact absurd hok (by simp)
          · next img st2f h2 =>
              simp only [Except.ok.injEq, Prod.mk.injEq] at hok
              obtain ⟨hb', hst2⟩ := hok
              obtain ⟨hwf2, hnz, u, hu, hud1, hud2⟩ := set_key_core env hpos
                (cache_surface env st surf) st1 st2f
                (cache_surface_wf env st surf hwf (hsurf surf rfl))
                (idStr surf) f (pyRound width) (pyRound height)
                (pyNormAngle (pyTrunc angle))
                (pyRound_nonneg width hw) (pyRound_nonneg height hh)
                unrot img h1 _ rfl h2
              subst hst2
              set wh : ℤ × ℤ := (if pyRound width = 0 ∧ pyRound height = 0
                then (((dims env unrot).1 : ℤ), ((dims env unrot).2 : ℤ))
                else (pyRound width, pyRound height)) with hwh_def
              refine ⟨⟨⟨idStr surf, f, wh.1, wh.2, pyNormAngle (pyTrunc angle)⟩,
                img, ?_, ?_, hnz, ⟨u, hu, hud1, hud2⟩, ?_, ?_⟩, hwf2⟩
              all_goals rw [← hb']

/-- C10: for cache-backed boxes (with non-empty source images), construction
and every key-changing mutator (`flip`, `rotate`, `scale_by`, `full_size`,
and the `size`/`width`/`height`/`image` setters) leave the box satisfying
`keyInv`: the stored key's width/height equal the unrotated resolved image's
pixel dimensions (never the `(0, 0)` sentinel), and the box's stored size is
the displayed image's; cache well-formedness is preserved throughout. -/
theorem c10_stored_key_dimensions (env : Env) (hpos : PosDims env) :
    (∀ (st : St) (x y : ℚ) (s : String) (b' : SpriteBox) (st2 : St),
      WFCache env st.cache →
      SpriteBox.from_image env st x y (.inl s) = .ok (b', st2) →
      keyInv env b' st2 ∧ WFCache env st2.cache) ∧
    (∀ (st : St) (b b' : SpriteBox) (st2 : St),
      keyInv env b st → WFCache env st.cache →
      SpriteBox.flip env st b = .ok (b', st2) →
      keyInv env b' st2 ∧ WFCache env st2.cache) ∧
    (∀ (st : St) (b : SpriteBox) (ang : ℚ) (b' : SpriteBox) (st2 : St),
      keyInv env b st → WFCache env st.cache →
      SpriteBox.rotate env st b ang = .ok (b', st2) →
      keyInv env b' st2 ∧ WFCache env st2.cache) ∧
    (∀ (st : St) (b : SpriteBox) (mult : ℚ) (b' : SpriteBox) (st2 : St),
      0 ≤ mult → keyInv env b st → WFCache env st.cache →
      SpriteBox.scale_by env st b mult = .ok (b', st2) →
      keyInv env b' st2 ∧ WFCache env st2.cache) ∧
    (∀ (st : St) (b b' : SpriteBox) (st2 : St),
      keyInv env b st → WFCache env st.cache →
      SpriteBox.full_size env st b = .ok (b', st2) →
      keyInv env b' st2 ∧ WFCache env st2.cache) ∧
    (∀ (st : St) (b : SpriteBox) (v : ℚ) (b' : SpriteBox) (st2 : St),
      0 ≤ v → keyInv env b st → WFCache env st.cache →
      SpriteBox.set_width env st b v = .ok (b', st2) →
      keyInv env b' st2 ∧ WFCache env st2.cache) ∧
    (∀ (st : St) (b : SpriteBox) (v : ℚ) (b' : SpriteBox) (st2 : St),
      0 ≤ v → keyInv env b st → WFCache env st.cache →
      SpriteBox.set_height env st b v = .ok (b', st2) →
      keyInv env b' st2 ∧ WFCache env st2.cache) ∧
    (∀ (st : St) (b : SpriteBox) (v1 v2 : ℚ) (b' : SpriteBox) (st2 : St),
      0 ≤ v1 → 0 ≤ v2 → keyInv env b st → WFCache env st.cache →
      SpriteBox.set_size env st b (v1, v2) = .ok (b', st2) →
      keyInv env b' st2 ∧ WFCache env st2.cache) ∧
    (∀ (st : St) (b : SpriteBox) (s2 : String) (b' : SpriteBox) (st2 : St),
      keyInv env b st → WFCache env st.cache →
      SpriteBox.set_image env st b (.inl s2) = .ok (b', st2) →
      keyInv env b' st2 ∧ WFCache env st2.cache) := by
  have hinl : ∀ (s : String) (surf : Image),
      (Sum.inl s : String ⊕ Image) = Sum.inr surf →
      0 < (dims env surf).1 ∧ 0 < (dims env surf).2 := by
    intro s surf hc
    exact absurd hc (by simp)
  have hscale : ∀ (st : St) (b : SpriteBox) (mult : ℚ) (b' : SpriteBox)
      (st2 : St), 0 ≤ mult → keyInv env b st → WFCache env st.cache →
      SpriteBox.scale_by env st b mult = .ok (b', st2) →
      keyInv env b' st2 ∧ WFCache env st2.cache := by
    intro st b mult b' st2 hm hinv hwf hok
    obtain ⟨k, img, hbk, hbi, hknz, ⟨unrot, hres, hud1, hud2⟩, hbw, hbh⟩ := hinv
    have hkw : (0 : ℚ) ≤ (k.w : ℚ) := by
      rw [← hud1]
      positivity
    have hkh : (0 : ℚ) ≤ (k.h : ℚ) := by
      rw [← hud2]
      positivity
    simp only [SpriteBox.scale_by, hbk] at hok
    exact set_key_inv env st b _ k.flip _ _ _ hpos hwf
      (mul_nonneg hkw hm) (mul_nonneg hkh hm) (hinl k.key) b' st2 hok
  refine ⟨?_, ?_, ?_, hscale, ?_, ?_, ?_, ?_, ?_⟩
  · -- construction from a string reference
    intro st x y s b' st2 hwf hok
    simp only [SpriteBox.from_image] at hok
    split at hok
    · exact absurd hok (by simp)
    · next img st1 heq =>
        obtain ⟨hwf1, hp1, hp2⟩ := load_wf env st s img st1 hpos hwf heq
        refine set_key_inv env st1 _ (.inr img) false 0 0 0 hpos hwf1
          le_rfl le_rfl ?_ b' st2 hok
        intro surf hc
        have hx : img = surf := by injection hc
        rw [← hx]
        exact ⟨hp1, hp2⟩
  · -- flip
    intro st b b' st2 hinv hwf hok
    obtain ⟨k, img, hbk, hbi, hknz, ⟨unrot, hres, hud1, hud2⟩, hbw, hbh⟩ := hinv
    have hkw : (0 : ℚ) ≤ (k.w : ℚ) := by
      rw [← hud1]
      positivity
    have hkh : (0 : ℚ) ≤ (k.h : ℚ) := by
      rw [← hud2]
      positivity
    simp only [SpriteBox.flip, hbk] at hok
    exact set_key_inv env st b _ (!k.flip) _ _ _ hpos hwf hkw hkh
      (hinl k.key) b' st2 hok
  · -- rotate
    intro st b ang b' st2 hinv hwf hok
    obtain ⟨k, img, hbk, hbi, hknz, ⟨unrot, hres, hud1, hud2⟩, hbw, hbh⟩ := hinv
    have hkw : (0 : ℚ) ≤ (k.w : ℚ) := by
      rw [← hud1]
      positivity
    have hkh : (0 : ℚ) ≤ (k.h : ℚ) := by
      rw [← hud2]
      positivity
    simp only [SpriteBox.rotate, hbk] at hok
    exact set_key_inv env st b _ k.flip _ _ _ hpos hwf hkw hkh
      (hinl k.key) b' st2 hok
  · -- full_size
    intro st b b' st2 hinv hwf hok
    obtain ⟨k, img, hbk, hbi, hknz, ⟨unrot, hres, hud1, hud2⟩, hbw, hbh⟩ := hinv
    simp only [SpriteBox.full_size, hbk] at hok
    exact set_key_inv env st b _ k.flip 0 0 _ hpos hwf le_rfl le_rfl
      (hinl k.key) b' st2 hok
  · -- width setter
    intro st b v b' st2 hv hinv hwf hok
    have hbw : (0 : ℚ) ≤ b.w := by
      obtain ⟨k, img, _, _, _, _, hbw, _⟩ := hinv
      rw [hbw]
      positivity
    rw [SpriteBox.set_width] at hok
    exact hscale st b (v / b.w) b' st2 (div_nonneg hv hbw) hinv hwf hok
  · -- height setter
    intro st b v b' st2 hv hinv hwf hok
    have hbh : (0 : ℚ) ≤ b.h := by
      obtain ⟨k, img, _, _, _, _, _, hbh⟩ := hinv
      rw [hbh]
      positivity
    rw [SpriteBox.set_height] at hok
    exact hscale st b (v / b.h) b' st2 (div_nonneg hv hbh) hinv hwf hok
  · -- size setter
    intro st b v1 v2 b' st2 hv1 hv2 hinv hwf hok
    obtain ⟨k, img, hbk, hbi, hknz, ⟨unrot, hres, hud1, hud2⟩, hbw, hbh⟩ := hinv
    simp only [SpriteBox.set_size, hbk, hbi] at hok
    rw [if_pos ⟨by simp, by simp⟩] at hok
    exact set_key_inv env st b _ k.flip v1 v2 _ hpos hwf hv1 hv2
      (hinl k.key) b' st2 hok
  · -- image setter
    intro st b s2 b' st2 hinv hwf hok
    obtain ⟨k, img, hbk, hbi, hknz, ⟨unrot, hres, hud1, hud2⟩, hbw, hbh⟩ := hinv
    have hkw : (0 : ℚ) ≤ (k.w : ℚ) := by
      rw [← hud1]
      positivity
    have hkh : (0 : ℚ) ≤ (k.h : ℚ) := by
      rw [← hud2]
      positivity
    simp only [SpriteBox.set_image, hbk] at hok
    exact set_key_inv env st b _ k.flip _ _ _ hpos hwf hkw hkh
      (hinl s2) b' st2 hok

theorem env0_posDims : PosDims env0 := by
  intro s
  constructor <;> norm_num [env0]

theorem st0_wf : WFCache env0 st0.cache := by
  intro k img h
  simp [lookupC, st0] at h

theorem pyRound_zero : pyRound 0 = 0 := by
  unfold pyRound pyTrunc
  rw [if_pos (by norm_num : (0 : ℚ) ≤ 0 + 1 / 2), rat_floor_eq_intFloor,
    Int.floor_eq_zero_iff, Set.mem_Ico]
  constructor <;> norm_num

theorem pyNormAngle_trunc_zero : pyNormAngle (pyTrunc 0) = 0 := by
  have h : pyTrunc (0 : ℚ) = 0 := by
    unfold pyTrunc
    rw [if_pos le_rfl, rat_floor_eq_intFloor]
    norm_num
  rw [h]
  decide

/-- The box built by `from_image` on `"a"` in `env0`. -/
def boxW : SpriteBox :=
  ⟨0, 0, 0, 0, some ⟨"__id__d(a,0)", false, 3, 2, 0⟩, some img0, none, 3, 2⟩

theorem eval_from_image :
    SpriteBox.from_image env0 st0 0 0 (.inl "a") = .ok (boxW, stA) := by
  simp [SpriteBox.from_image, SpriteBox.init_box, SpriteBox.set_key,
    pyRound_zero, pyNormAngle_trunc_zero, get_transform, lookupC, insertC,
    load_filename_or_url, get_filename, get_url, decodeImage, cache_surface,
    fileExistsSt, dims, env0, st0, img0, stA, boxW, idStr_img0, str_a_ne_id,
    str_id_ne_a]

/-- Witness for C10 at a concrete input: constructing a box from `"a"`
(natural size `3×2`) establishes the stored-key invariant. -/
theorem c10_stored_key_dimensions_witness :
    PosDims env0 ∧ WFCache env0 st0.cache ∧
    SpriteBox.from_image env0 st0 0 0 (.inl "a") = .ok (boxW, stA) ∧
    keyInv env0 boxW stA :=
  ⟨env0_posDims, st0_wf, eval_from_image,
    ((c10_stored_key_dimensions env0 env0_posDims).1 st0 0 0 "a" boxW stA
      st0_wf eval_from_image).1⟩
